import Mathlib

/-!
Verification of the deterministic checker / quality-monitor core of the
`pesquisa-grafos` repository (files `src/quality/checker.py` and
`src/quality/monitor.py`), as a shallow embedding in Lean 4.

Modelling conventions:
* Python strings are sequences of Unicode code points; we model them as
  `List Char` (`PyStr`), so character offsets coincide with Python offsets.
* Python floats are modelled as exact rationals (`ℚ`).
* The Neo4j knowledge graph reached through `_run_query` is external; it is
  modelled as a record of row lists (`KG`), and each Cypher query of the
  source is modelled by the filter its `WHERE` clause describes, returning
  rows in the store's order.
* Python `set` objects are modelled as lists; where the source converts a
  set to a list (`list({...})`), the model keeps first-insertion order
  (CPython's iteration order for string sets is hash dependent and not
  specifiable).
* The regular-expression searches of the source are modelled by dedicated
  scanning functions that follow the concrete patterns (leftmost match,
  ordered alternation, greedy/lazy repetition as in the pattern, and
  non-overlapping continuation for `findall`/`finditer`).
-/

set_option maxRecDepth 4000

/-! ### Python string primitives -/

abbrev PyStr := List Char

def pystr (s : String) : PyStr := s.data

/-- Python `str.lower` restricted to ASCII and the Latin-1 letter block,
which covers every character the source's tables and our inputs use. -/
def pyLowerChar (c : Char) : Char :=
  if 'A' ≤ c ∧ c ≤ 'Z' then Char.ofNat (c.toNat + 32)
  else if 0xC0 ≤ c.toNat ∧ c.toNat ≤ 0xDE ∧ c.toNat ≠ 0xD7 then Char.ofNat (c.toNat + 32)
  else c

/-- Python `str.upper` restricted to ASCII and the Latin-1 letter block. -/
def pyUpperChar (c : Char) : Char :=
  if 'a' ≤ c ∧ c ≤ 'z' then Char.ofNat (c.toNat - 32)
  else if 0xE0 ≤ c.toNat ∧ c.toNat ≤ 0xFE ∧ c.toNat ≠ 0xF7 then Char.ofNat (c.toNat - 32)
  else c

def pyLower (s : PyStr) : PyStr := s.map pyLowerChar

def pyUpper (s : PyStr) : PyStr := s.map pyUpperChar

/-- The whitespace class of `\s` (ASCII part, which is all the source's
texts use). -/
def isSpaceB (c : Char) : Bool :=
  c = ' ' || c = '\t' || c = '\n' || c = '\r' || c = '\x0b' || c = '\x0c'

def isDigitB (c : Char) : Bool := '0' ≤ c && c ≤ '9'

def isAsciiLetterB (c : Char) : Bool := ('A' ≤ c && c ≤ 'Z') || ('a' ≤ c && c ≤ 'z')

/-- The word class of `\w` (ASCII letters, digits, underscore, plus the
Latin letter blocks used by Portuguese text). -/
def isWordCharB (c : Char) : Bool :=
  isAsciiLetterB c || isDigitB c || c = '_' ||
    (0xC0 ≤ c.toNat && c.toNat ≤ 0x24F && c.toNat ≠ 0xD7 && c.toNat ≠ 0xF7)

/-- Predicate: `a` starts with `b` (no case folding). -/
def pyStartsWith : PyStr → PyStr → Bool
  | _, [] => true
  | [], _ :: _ => false
  | a :: s, b :: t => a == b && pyStartsWith s t

/-- Predicate: `a` starts with `b`, comparing case-insensitively via `pyLowerChar`. -/
def pyStartsWithCI (a b : PyStr) : Bool := pyStartsWith (pyLower a) (pyLower b)

/-- Python `needle in hay` (substring test; the empty needle is contained
everywhere, as in Python and in Cypher `CONTAINS`). -/
def containsSub : PyStr → PyStr → Bool
  | hay, needle =>
    match hay with
    | [] => needle == []
    | _ :: t => pyStartsWith hay needle || containsSub t needle

/-- Python `str.strip()` over the `\s` class. -/
def pyStrip (s : PyStr) : PyStr :=
  ((s.dropWhile isSpaceB).reverse.dropWhile isSpaceB).reverse

/-- Model of `re.sub(r'\s+', ' ', s)`.  Structural recursion on a fuel bound so
that the kernel can evaluate it; each step consumes at least one
character, so `length + 1` fuel always suffices. -/
def subWsRunsF : ℕ → PyStr → PyStr
  | 0, _ => []
  | _, [] => []
  | fuel + 1, c :: rest =>
    if isSpaceB c then ' ' :: subWsRunsF fuel (rest.dropWhile isSpaceB)
    else c :: subWsRunsF fuel rest

def subWsRuns (s : PyStr) : PyStr := subWsRunsF (s.length + 1) s

/-- Maximal runs of `\w` characters: `re.findall(r'\w+', s)` (fuel-bounded
structural recursion; `length + 1` always suffices). -/
def findallWordsF : ℕ → PyStr → List PyStr
  | 0, _ => []
  | _, [] => []
  | fuel + 1, c :: rest =>
    if isWordCharB c then
      (c :: rest.takeWhile isWordCharB) :: findallWordsF fuel (rest.dropWhile isWordCharB)
    else findallWordsF fuel rest

def findallWords (s : PyStr) : List PyStr := findallWordsF (s.length + 1) s

/-- Absolute difference of two naturals. -/
def natDist (a b : ℕ) : ℕ := max a b - min a b

/-! ### Occurrence scanning (case-insensitive literal `finditer`) -/

/-- Start offsets of the non-overlapping, left-to-right occurrences of
`pat` in `rem`, with `i` the offset of the head of `rem`.  This is the
semantics of `re.finditer(re.escape(pat), texto, re.IGNORECASE)` applied
to already-lowercased inputs.  An empty pattern never arises from the
source (patterns are extracted case numbers); we return no occurrence. -/
def occAux : ℕ → PyStr → PyStr → ℕ → List ℕ
  | 0, _, _, _ => []
  | _, [], _, _ => []
  | fuel + 1, c :: t, pat, i =>
    if pat ≠ [] ∧ pyStartsWith (c :: t) pat = true then
      i :: occAux fuel ((c :: t).drop pat.length) pat (i + pat.length)
    else
      occAux fuel t pat (i + 1)

def occAll (texto pat : PyStr) : List ℕ :=
  occAux (texto.length + 1) (pyLower texto) (pyLower pat) 0

/-! ### Proximity associator (`_processo_mais_proximo`) -/

/-- Distances from `pos` of every occurrence of `proc` in `texto`. -/
def distsTo (texto : PyStr) (pos : ℕ) (proc : PyStr) : List ℕ :=
  (occAll texto proc).map (fun s => natDist s pos)

/-- The inner loop of `_processo_mais_proximo`: for every occurrence
distance `d` of case `p`, update `(menor_dist, mais_proximo)` when `d`
strictly improves. -/
def innerFold (p : PyStr) (ds : List ℕ) (acc : WithTop ℕ × PyStr) :
    WithTop ℕ × PyStr :=
  ds.foldl (fun acc d => if (d : WithTop ℕ) < acc.1 then ((d : WithTop ℕ), p) else acc) acc

/-- Model of `_processo_mais_proximo(texto, posicao, processos)`: `menor_dist`
starts at `float('inf')` (modelled by `⊤ : WithTop ℕ`) and
`mais_proximo` at `processos[0]`; each occurrence of each case in the
text updates the pair on strict improvement. -/
def processo_mais_proximo (texto : PyStr) (posicao : ℕ) (processos : List PyStr) :
    Option PyStr :=
  match processos with
  | [] => none
  | p0 :: _ =>
    some ((processos.foldl
      (fun acc proc => innerFold proc (distsTo texto posicao proc) acc)
      ((⊤ : WithTop ℕ), p0)).2)

/-- Specification-side definition (from the claim's words): the minimal
occurrence distance of a case identifier, `⊤` when it never occurs. -/
def minDistTo (texto : PyStr) (pos : ℕ) (proc : PyStr) : WithTop ℕ :=
  (distsTo texto pos proc).foldr (fun d m => min (d : WithTop ℕ) m) ⊤

/-- Specification-side definition (from the claim's words): the first
element of `l` whose value under `f` is minimal; `none` on the empty
list. -/
def argminFirst (f : PyStr → WithTop ℕ) (l : List PyStr) : Option PyStr :=
  l.find? (fun p => decide (f p = (l.map f).foldr min ⊤))

/-! #### Lemmas about the associator fold -/

/-- The minimum of a list of distances, `⊤` on the empty list. -/
def dmin (ds : List ℕ) : WithTop ℕ := ds.foldr (fun d m => min (d : WithTop ℕ) m) ⊤

theorem dmin_cons (d : ℕ) (t : List ℕ) : dmin (d :: t) = min (d : WithTop ℕ) (dmin t) := rfl

theorem innerFold_eq (p : PyStr) (ds : List ℕ) (m : WithTop ℕ) (b : PyStr) :
    innerFold p ds (m, b) = (min m (dmin ds), if dmin ds < m then p else b) := by
  induction ds generalizing m b with
  | nil =>
    simp [innerFold, dmin]
  | cons d t ih =>
    have step : innerFold p (d :: t) (m, b) =
        innerFold p t (if (d : WithTop ℕ) < m then ((d : WithTop ℕ), p) else (m, b)) := rfl
    rw [step, dmin_cons]
    by_cases hd : (d : WithTop ℕ) < m
    · rw [if_pos hd, ih]
      have hle : min (d : WithTop ℕ) (dmin t) ≤ m :=
        le_of_lt (lt_of_le_of_lt (min_le_left _ _) hd)
      apply Prod.ext
      · show min (d : WithTop ℕ) (dmin t) = min m (min (d : WithTop ℕ) (dmin t))
        exact (min_eq_right hle).symm
      · show (if dmin t < (d : WithTop ℕ) then p else p) =
          (if min (d : WithTop ℕ) (dmin t) < m then p else b)
        rw [if_pos (lt_of_le_of_lt (min_le_left _ _) hd)]
        split <;> rfl
    · rw [if_neg hd, ih]
      push_neg at hd
      apply Prod.ext
      · show min m (dmin t) = min m (min (d : WithTop ℕ) (dmin t))
        rw [min_comm (d : WithTop ℕ) (dmin t), ← min_assoc]
        exact (min_eq_left (le_trans (min_le_left _ _) hd)).symm
      · show (if dmin t < m then p else b) =
          (if min (d : WithTop ℕ) (dmin t) < m then p else b)
        exact if_congr (min_lt_iff.trans (or_iff_right (not_lt.mpr hd))).symm rfl rfl

/-- Global minimal distance over a list of case identifiers. -/
def gminOf (texto : PyStr) (pos : ℕ) (l : List PyStr) : WithTop ℕ :=
  (l.map (minDistTo texto pos)).foldr min ⊤

theorem gminOf_cons (texto : PyStr) (pos : ℕ) (q : PyStr) (l : List PyStr) :
    gminOf texto pos (q :: l) = min (minDistTo texto pos q) (gminOf texto pos l) := rfl

theorem minDistTo_eq_dmin (texto : PyStr) (pos : ℕ) (q : PyStr) :
    minDistTo texto pos q = dmin (distsTo texto pos q) := rfl


theorem find?_cons_pos {α} (pr : α → Bool) (a : α) (l : List α) (h : pr a = true) :
    (a :: l).find? pr = some a := by
  simp [List.find?, h]

theorem find?_cons_neg {α} (pr : α → Bool) (a : α) (l : List α) (h : pr a = false) :
    (a :: l).find? pr = l.find? pr := by
  simp [List.find?, h]

/-- Characterization of the double loop of `_processo_mais_proximo`:
the running pair holds the minimum distance seen so far, and the chosen
case is the first one attaining the global minimum (or the initial one
when nothing improved). -/
theorem pmp_fold_spec (texto : PyStr) (pos : ℕ) (l : List PyStr) :
    ∀ (m : WithTop ℕ) (b : PyStr),
      (l.foldl (fun acc proc => innerFold proc (distsTo texto pos proc) acc) (m, b)).1
          = min m (gminOf texto pos l)
      ∧ (gminOf texto pos l < m →
          l.find? (fun q => decide (minDistTo texto pos q = gminOf texto pos l))
            = some (l.foldl (fun acc proc => innerFold proc (distsTo texto pos proc) acc) (m, b)).2)
      ∧ (¬ gminOf texto pos l < m →
          (l.foldl (fun acc proc => innerFold proc (distsTo texto pos proc) acc) (m, b)).2 = b) := by
  induction l with
  | nil =>
    intro m b
    refine ⟨by simp [gminOf], ?_, fun _ => rfl⟩
    intro h
    exact absurd h (by simp [gminOf])
  | cons p t ih =>
    intro m b
    have hstep : ∀ st : WithTop ℕ × PyStr,
        (p :: t).foldl (fun acc proc => innerFold proc (distsTo texto pos proc) acc) st
          = t.foldl (fun acc proc => innerFold proc (distsTo texto pos proc) acc)
              (innerFold p (distsTo texto pos p) st) := fun st => rfl
    rw [hstep, innerFold_eq, gminOf_cons, ← minDistTo_eq_dmin]
    set f := minDistTo texto pos with hf
    obtain ⟨ih1, ih2, ih3⟩ := ih (min m (f p)) (if f p < m then p else b)
    refine ⟨?_, ?_, ?_⟩
    · rw [ih1, min_assoc]
    · intro hlt
      by_cases hhead : f p = min (f p) (gminOf texto pos t)
      · -- the head attains the global minimum
        have hple : f p ≤ gminOf texto pos t := min_eq_left_iff.mp hhead.symm
        have hpm : f p < m := by
          rw [min_eq_left hple] at hlt
          exact hlt
        have hnot : ¬ gminOf texto pos t < min m (f p) :=
          not_lt.mpr (le_trans (min_le_right _ _) hple)
        rw [find?_cons_pos (fun q => decide (f q = f p ⊓ gminOf texto pos t)) p t
            (decide_eq_true hhead),
          ih3 hnot, if_pos hpm]
      · -- the head does not attain the global minimum: it lies strictly above
        have hgt : gminOf texto pos t < f p := by
          rcases lt_or_le (gminOf texto pos t) (f p) with h | h
          · exact h
          · exact absurd (min_eq_left h).symm hhead
        have hmin : min (f p) (gminOf texto pos t) = gminOf texto pos t :=
          min_eq_right (le_of_lt hgt)
        have hlt2 : gminOf texto pos t < min m (f p) := by
          rw [hmin] at hlt
          exact lt_min hlt hgt
        have hfind := ih2 hlt2
        rw [find?_cons_neg (fun q => decide (f q = f p ⊓ gminOf texto pos t)) p t
            (decide_eq_false hhead),
          hmin]
        exact hfind
    · intro hge
      push_neg at hge
      have h1 : m ≤ f p := le_trans hge (min_le_left _ _)
      have h2 : m ≤ gminOf texto pos t := le_trans hge (min_le_right _ _)
      have hnot : ¬ gminOf texto pos t < min m (f p) :=
        not_lt.mpr (le_trans (min_le_left _ _) h2)
      rw [ih3 hnot, if_neg (not_lt.mpr h1)]

/-- The associator equals the specification: the first identifier whose
minimal occurrence distance is globally minimal; `none` on `[]`. -/
theorem pmp_eq_argminFirst (texto : PyStr) (pos : ℕ) (processos : List PyStr) :
    processo_mais_proximo texto pos processos
      = argminFirst (minDistTo texto pos) processos := by
  cases processos with
  | nil => rfl
  | cons p0 rest =>
    obtain ⟨h1, h2, h3⟩ := pmp_fold_spec texto pos (p0 :: rest) ⊤ p0
    by_cases hlt : gminOf texto pos (p0 :: rest) < ⊤
    · have hfind := h2 hlt
      show some _ = argminFirst (minDistTo texto pos) (p0 :: rest)
      rw [argminFirst]
      rw [show ((p0 :: rest).map (minDistTo texto pos)).foldr min ⊤
            = gminOf texto pos (p0 :: rest) from rfl]
      exact hfind.symm
    · have htop : gminOf texto pos (p0 :: rest) = ⊤ := by
        rcases eq_or_lt_of_le (le_top : gminOf texto pos (p0 :: rest) ≤ ⊤) with h | h
        · exact h
        · exact absurd h hlt
      have hp0 : minDistTo texto pos p0 = ⊤ := by
        have hmin := gminOf_cons texto pos p0 rest ▸ htop
        exact (min_eq_top.mp hmin).1
      show some _ = argminFirst (minDistTo texto pos) (p0 :: rest)
      rw [argminFirst]
      rw [show ((p0 :: rest).map (minDistTo texto pos)).foldr min ⊤
            = gminOf texto pos (p0 :: rest) from rfl]
      rw [find?_cons_pos
            (fun q => decide (minDistTo texto pos q = gminOf texto pos (p0 :: rest))) p0 rest
            (decide_eq_true (by rw [hp0, htop]))]
      rw [h3 hlt]

/-! ### Data model (`Claim`, `CheckerResult`) -/

/-- The `Claim` dataclass of `checker.py`. -/
structure Claim where
  tipo : PyStr
  processo : PyStr
  valor : PyStr
  verificado : Bool := false
  encontrado_no_kg : Bool := false
deriving DecidableEq, Repr

/-- The `CheckerResult` dataclass of `checker.py` (floats as `ℚ`). -/
structure CheckerResult where
  total_claims : ℕ := 0
  verificados_ok : ℕ := 0
  verificados_falha : ℕ := 0
  score : ℚ := 0
  claims : List Claim := []
  concordancia_llm : ℚ := 0
deriving DecidableEq, Repr

/-! ### Case-number extraction (`extrair_processos_citados`) -/

/-- The alternation `HC|RE|RHC|ADI|ADPF|MS|AgR|ED|ARE`, in pattern order. -/
def procAbbrevs : List PyStr :=
  [pystr "HC", pystr "RE", pystr "RHC", pystr "ADI", pystr "ADPF", pystr "MS",
   pystr "AgR", pystr "ED", pystr "ARE"]

/-- Greedy `(?:\.[\d]+)*`. Returns (consumed, rest); fuel-bounded. -/
def dotGroupsF : ℕ → PyStr → (PyStr × PyStr)
  | 0, s => ([], s)
  | _, [] => ([], [])
  | fuel + 1, c :: rest =>
    if c = '.' ∧ rest.takeWhile isDigitB ≠ [] then
      let ds := rest.takeWhile isDigitB
      let gr := dotGroupsF fuel (rest.drop ds.length)
      ('.' :: (ds ++ gr.1), gr.2)
    else ([], c :: rest)

def dotGroups (s : PyStr) : PyStr × PyStr := dotGroupsF (s.length + 1) s

/-- Optional `(?:/[A-Z]{2})?` (two letters, case-insensitive because the
whole pattern carries `re.IGNORECASE`). -/
def jurisSuffix : PyStr → (PyStr × PyStr)
  | '/' :: a :: b :: r =>
    if isAsciiLetterB a && isAsciiLetterB b then (['/', a, b], r)
    else ([], '/' :: a :: b :: r)
  | s => ([], s)

/-- One alternative of the case-number pattern at the head of `rem`;
returns the matched text (= group 1) and the unconsumed rest. -/
def tryProcAbbrev (ab rem : PyStr) : Option (PyStr × PyStr) :=
  if pyStartsWithCI rem ab then
    let abTxt := rem.take ab.length
    let r0 := rem.drop ab.length
    let sp := r0.takeWhile isSpaceB
    let r1 := r0.drop sp.length
    let ds := r1.takeWhile isDigitB
    if ds = [] then none
    else
      let gr := dotGroups (r1.drop ds.length)
      let sr := jurisSuffix gr.2
      some (abTxt ++ sp ++ ds ++ gr.1 ++ sr.1, sr.2)
  else none

def matchProcAt (rem : PyStr) : Option (PyStr × PyStr) :=
  procAbbrevs.findSome? (fun ab => tryProcAbbrev ab rem)

/-- Model of the `re.findall` scan for the case-number pattern: leftmost, word
boundary `\b` before the abbreviation, non-overlapping continuation.
`fuel` bounds the recursion; each step consumes at least one character,
so `texto.length + 1` is always enough. -/
def findProcsAux : ℕ → Option Char → PyStr → List PyStr
  | 0, _, _ => []
  | _ + 1, _, [] => []
  | fuel + 1, prev, c :: t =>
    let boundary := match prev with
      | none => true
      | some pc => ! isWordCharB pc
    if boundary then
      match matchProcAt (c :: t) with
      | some (g, rest) => g :: findProcsAux fuel (some (g.getLastD c)) rest
      | none => findProcsAux fuel (some c) t
    else findProcsAux fuel (some c) t

/-- Model of `extrair_processos_citados`: findall, then per-match
`re.sub(r'\s+', ' ', m.strip().upper())`, then `list({...})`
(set collapse, modelled as first-occurrence deduplication). -/
def extrair_processos_citados (texto : PyStr) : List PyStr :=
  ((findProcsAux (texto.length + 1) none texto).map
    (fun m => subWsRuns (pyUpper (pyStrip m)))).eraseDups

/-! ### Reporter-name extraction -/

/-- Class `[A-ZÀ-Ú]` literally: this Latin-1 range runs from `À` (U+00C0) to
`Ú` (U+00DA) and therefore also contains `×` (U+00D7), as in Python. -/
def isUpperPT (c : Char) : Bool :=
  ('A' ≤ c && c ≤ 'Z') || (0xC0 ≤ c.toNat && c.toNat ≤ 0xDA)

/-- Class `[a-zà-ú]` literally (the range contains `÷`, as in Python). -/
def isLowerPT (c : Char) : Bool :=
  ('a' ≤ c && c ≤ 'z') || (0xE0 ≤ c.toNat && c.toNat ≤ 0xFA)

/-- One capitalized word `[A-ZÀ-Ú][a-zà-ú]+`. -/
def matchNameWord : PyStr → Option (PyStr × PyStr)
  | [] => none
  | c :: t =>
    if isUpperPT c then
      let ls := t.takeWhile isLowerPT
      if ls = [] then none else some (c :: ls, t.drop ls.length)
    else none

/-- Greedy `(?:\s+Word){0..k}` (each repetition needs `\s+`). -/
def nameExtras : ℕ → PyStr → (PyStr × PyStr)
  | 0, rem => ([], rem)
  | k + 1, rem =>
    let sp := rem.takeWhile isSpaceB
    if sp = [] then ([], rem)
    else
      match matchNameWord (rem.drop sp.length) with
      | some (w, r) =>
        let mr := nameExtras k r
        (sp ++ w ++ mr.1, mr.2)
      | none => ([], rem)

/-- Pattern `Word(?:\s+Word){1,maxExtra}`: at least two capitalized words. -/
def matchFullName (maxExtra : ℕ) (rem : PyStr) : Option (PyStr × PyStr) :=
  match matchNameWord rem with
  | none => none
  | some (w, r) =>
    let mr := nameExtras maxExtra r
    if mr.1 = [] then none else some (w ++ mr.1, mr.2)

/-- Keyword alternation of the first reporter pattern (case-sensitive,
since that pattern is compiled without flags). -/
def relatorKws1 : List PyStr :=
  [pystr "relator", pystr "relatora", pystr "ministro", pystr "ministra"]

/-- First reporter pattern at the head of `rem`: keyword, `\s*`,
optional `:` or `,`, `\s*`, then a 2–5-word capitalized name (group 1). -/
def tryRelator1At (rem : PyStr) : Option (PyStr × PyStr) :=
  relatorKws1.findSome? fun kw =>
    if pyStartsWith rem kw then
      let r0 := rem.drop kw.length
      let r1 := r0.drop (r0.takeWhile isSpaceB).length
      let r2 := match r1 with
        | ':' :: rr => rr
        | ',' :: rr => rr
        | _ => r1
      let r3 := r2.drop (r2.takeWhile isSpaceB).length
      matchFullName 4 r3
    else none

def relatorKws2 : List PyStr := [pystr "Min.", pystr "Ministro", pystr "Ministra"]

/-- Second reporter pattern: keyword, `\s+`, then a 2–4-word name. -/
def tryRelator2At (rem : PyStr) : Option (PyStr × PyStr) :=
  relatorKws2.findSome? fun kw =>
    if pyStartsWith rem kw then
      let r0 := rem.drop kw.length
      let sp := r0.takeWhile isSpaceB
      if sp = [] then none
      else matchFullName 3 (r0.drop sp.length)
    else none

/-- Generic `finditer` scan collecting (match start, payload);
non-overlapping, leftmost-first.  The payload extractor also returns the
unconsumed rest of the text. -/
def finditerAux (tryAt : PyStr → Option (PyStr × PyStr)) :
    ℕ → ℕ → PyStr → List (ℕ × PyStr)
  | 0, _, _ => []
  | _ + 1, _, [] => []
  | fuel + 1, i, c :: t =>
    match tryAt (c :: t) with
    | some (payload, rest) =>
        (i, payload) :: finditerAux tryAt fuel (i + ((c :: t).length - rest.length)) rest
    | none => finditerAux tryAt fuel (i + 1) t

/-- All reporter-name matches of both patterns, in the source's order
(pattern 1 first, then pattern 2), as (keyword offset, name). -/
def relatorMatches (texto : PyStr) : List (ℕ × PyStr) :=
  finditerAux tryRelator1At (texto.length + 1) 0 texto
    ++ finditerAux tryRelator2At (texto.length + 1) 0 texto

/-! ### Article-citation extraction -/

/-- Class `[IVXLCDM\d]` under `re.IGNORECASE` (roman-numeral letters of either
case, or a digit). -/
def isRomanDigitB (c : Char) : Bool :=
  isDigitB c || (['I', 'V', 'X', 'L', 'C', 'D', 'M'] : List Char).contains (pyUpperChar c)

/-- Clause keyword alternation `inciso|inc\.|§|parágrafo` (IGNORECASE),
each followed by `\s*[IVXLCDM\d]+`; ordered, first succeeding
alternative wins. -/
def clauseKws : List PyStr := [pystr "inciso", pystr "inc.", pystr "§", pystr "parágrafo"]

def tryClauseKw (rem : PyStr) : Option (PyStr × PyStr) :=
  clauseKws.findSome? fun kw =>
    if pyStartsWithCI rem kw then
      let kwTxt := rem.take kw.length
      let r0 := rem.drop kw.length
      let sp := r0.takeWhile isSpaceB
      let r1 := r0.drop sp.length
      let cls := r1.takeWhile isRomanDigitB
      if cls = [] then none
      else some (kwTxt ++ sp ++ cls, r1.drop cls.length)
    else none

/-- Optional clause `(?:\s*,?\s*(?:inciso|inc\.|§|parágrafo)?\s*[IVXLCDM\d]+)?`:
if no keyword alternative succeeds, the keyword is omitted and the
character class is tried directly (so a stray `d`/`i`/… can be consumed,
exactly as the Python pattern does). -/
def tryClause (rem : PyStr) : Option (PyStr × PyStr) :=
  let sp1 := rem.takeWhile isSpaceB
  let r1 := rem.drop sp1.length
  let cr := match r1 with
    | ',' :: rr => (([','] : PyStr), rr)
    | _ => (([] : PyStr), r1)
  let sp2 := cr.2.takeWhile isSpaceB
  let r3 := cr.2.drop sp2.length
  match tryClauseKw r3 with
  | some (kwPart, rest) => some (sp1 ++ cr.1 ++ sp2 ++ kwPart, rest)
  | none =>
    let cls := r3.takeWhile isRomanDigitB
    if cls = [] then none else some (sp1 ++ cr.1 ++ sp2 ++ cls, r3.drop cls.length)

/-- Alternation `(?:C[PF]P?|CF|Constituição)` (IGNORECASE); the middle alternative is
subsumed by the first. -/
def trySuffixCode (rem : PyStr) : Option (PyStr × PyStr) :=
  match rem with
  | c :: d :: r =>
    if pyLowerChar c = 'c' && (pyLowerChar d = 'p' || pyLowerChar d = 'f') then
      match r with
      | e :: r2 => if pyLowerChar e = 'p' then some ([c, d, e], r2) else some ([c, d], r)
      | [] => some ([c, d], [])
    else if pyStartsWithCI (c :: d :: r) (pystr "Constituição") then
      some ((c :: d :: r).take 12, (c :: d :: r).drop 12)
    else none
  | _ => none

def suffixPreps : List PyStr := [pystr "do", pystr "da", pystr "dos", pystr "das"]

/-- Optional code suffix `(?:\s*(?:do|da|dos|das)\s+(?:C[PF]P?|CF|Constituição))?`. -/
def trySuffix (rem : PyStr) : Option (PyStr × PyStr) :=
  let sp1 := rem.takeWhile isSpaceB
  let r1 := rem.drop sp1.length
  suffixPreps.findSome? fun prep =>
    if pyStartsWithCI r1 prep then
      let prepTxt := r1.take prep.length
      let r2 := r1.drop prep.length
      let sp2 := r2.takeWhile isSpaceB
      if sp2 = [] then none
      else
        match trySuffixCode (r2.drop sp2.length) with
        | some (code, rest) => some (sp1 ++ prepTxt ++ sp2 ++ code, rest)
        | none => none
    else none

/-- The whole article pattern at the head of `rem` (IGNORECASE):
`art\.?\s*\d+[º°]?` then the optional clause and the optional code
suffix; returns (group 0, rest). -/
def tryArtigoAt (rem : PyStr) : Option (PyStr × PyStr) :=
  if pyStartsWithCI rem (pystr "art") then
    let artTxt := rem.take 3
    let r0 := rem.drop 3
    let dr := match r0 with
      | '.' :: rr => ((['.'] : PyStr), rr)
      | _ => (([] : PyStr), r0)
    let sp := dr.2.takeWhile isSpaceB
    let r2 := dr.2.drop sp.length
    let ds := r2.takeWhile isDigitB
    if ds = [] then none
    else
      let r3 := r2.drop ds.length
      let odr := match r3 with
        | c :: rr => if c = 'º' || c = '°' then (([c] : PyStr), rr) else (([] : PyStr), r3)
        | [] => (([] : PyStr), ([] : PyStr))
      let clr := match tryClause odr.2 with
        | some (cl, rr) => (cl, rr)
        | none => (([] : PyStr), odr.2)
      let sfr := match trySuffix clr.2 with
        | some (sf, rr) => (sf, rr)
        | none => (([] : PyStr), clr.2)
      some (artTxt ++ dr.1 ++ sp ++ ds ++ odr.1 ++ clr.1 ++ sfr.1, sfr.2)
  else none

/-- All article matches as (match start, group 0). -/
def artigoMatches (texto : PyStr) : List (ℕ × PyStr) :=
  finditerAux tryArtigoAt (texto.length + 1) 0 texto

/-! ### Claim builder (`extrair_claims`) -/

/-- The deduplication key `(c.tipo, c.processo, c.valor.lower())`. -/
def claimKey (c : Claim) : PyStr × PyStr × PyStr := (c.tipo, c.processo, pyLower c.valor)

/-- The `seen`-set loop that removes duplicate claims, keeping first
occurrences. -/
def dedupClaimsAux : List Claim → List (PyStr × PyStr × PyStr) → List Claim
  | [], _ => []
  | c :: rest, seen =>
    if claimKey c ∈ seen then dedupClaimsAux rest seen
    else c :: dedupClaimsAux rest (claimKey c :: seen)

/-- The claim lists of `extrair_claims` before deduplication: one
`processo` claim per case number, then the reporter claims (pattern 1
then pattern 2), then the article claims, each associated to the nearest
case number (a reference with no associated case is dropped, mirroring
`if proc_mais_proximo and nome:` under Python truthiness). -/
def procClaimsOf (processos : List PyStr) : List Claim :=
  processos.map fun proc =>
    ({ tipo := pystr "processo", processo := proc, valor := proc } : Claim)

def relatorClaimsOf (texto : PyStr) (processos : List PyStr) : List Claim :=
  (relatorMatches texto).filterMap fun m =>
    match processo_mais_proximo texto m.1 processos with
    | some proc =>
      if proc ≠ [] ∧ pyStrip m.2 ≠ [] then
        some ({ tipo := pystr "relator", processo := proc, valor := pyStrip m.2 } : Claim)
      else none
    | none => none

def artigoClaimsOf (texto : PyStr) (processos : List PyStr) : List Claim :=
  (artigoMatches texto).filterMap fun m =>
    match processo_mais_proximo texto m.1 processos with
    | some proc =>
      if proc ≠ [] then
        some ({ tipo := pystr "artigo", processo := proc, valor := pyStrip m.2 } : Claim)
      else none
    | none => none

def rawClaims (texto : PyStr) (processos : List PyStr) : List Claim :=
  procClaimsOf processos ++ relatorClaimsOf texto processos ++ artigoClaimsOf texto processos

def extrair_claims (texto : PyStr) (processos : List PyStr) : List Claim :=
  dedupClaimsAux (rawClaims texto processos) []

/-! ### Negation detector -/

/-- The literal negative patterns (all lowercase; matched against the
lowercased text).  The ninth pattern, `não consta nas \d+ decisões`, is
handled separately below. -/
def padroes_negativos : List PyStr :=
  [pystr "não consta", pystr "não há registro", pystr "não encontr",
   pystr "não foram encontrad", pystr "não exist", pystr "não possui",
   pystr "nenhuma decisão", pystr "nenhum registro"]

/-- Pattern `não consta nas \d+ decisões` anchored at the head of `rem`. -/
def nasDecisoesAt (rem : PyStr) : Bool :=
  if pyStartsWith rem (pystr "não consta nas ") then
    let r := rem.drop (pystr "não consta nas ").length
    let ds := r.takeWhile isDigitB
    ds ≠ [] && pyStartsWith (r.drop ds.length) (pystr " decisões")
  else false

/-- Does `p` hold at some suffix (i.e. does the anchored pattern match
somewhere)? -/
def anySuffixB (p : PyStr → Bool) : PyStr → Bool
  | [] => p []
  | c :: t => p (c :: t) || anySuffixB p t

def detectar_claim_negativo (texto : PyStr) : Bool :=
  let texto_lower := pyLower texto
  padroes_negativos.any (fun pat => containsSub texto_lower pat)
    || anySuffixB nasDecisoesAt texto_lower

/-! ### Knowledge graph model and the Cypher verifiers -/

/-- The knowledge graph reached through `_run_query`, modelled as row
lists: case numbers, (case, reporter-name) edges, (case, article) edges
and (case, theme-description) edges, in the store's return order. -/
structure KG where
  processos : List PyStr := []
  relatores : List (PyStr × PyStr) := []
  artigos : List (PyStr × PyStr) := []
  temas : List (PyStr × PyStr) := []

/-- Model of `_verificar_processo`: a case-insensitive substring match on the
identifier exists. -/
def verificar_processo (kg : KG) (numero : PyStr) : Bool :=
  let results := kg.processos.filter fun n => containsSub (pyUpper n) (pyUpper numero)
  decide (0 < results.length)

/-- Model of `_verificar_relator`: empty result set fails; otherwise the first
returned reporter name must contain or be contained in the claimed name
(both lowercased). -/
def verificar_relator (kg : KG) (processo nome_relator : PyStr) : Bool :=
  let results :=
    (kg.relatores.filter fun r => containsSub (pyUpper r.1) (pyUpper processo)).map Prod.snd
  match results with
  | [] => false
  | nome_kg :: _ =>
    let a := pyLower nome_kg
    let b := pyLower nome_relator
    containsSub a b || containsSub b a

/-- Model of `re.search(r'(\d+)', s)`: the first maximal digit run. -/
def firstDigitRun : PyStr → Option PyStr
  | [] => none
  | c :: t => if isDigitB c then some (c :: t.takeWhile isDigitB) else firstDigitRun t

/-- Model of `_verificar_artigo`: empty result set fails; otherwise the leading
digit run of the claimed citation must be a substring of some stored
article. -/
def verificar_artigo (kg : KG) (processo artigo_ref : PyStr) : Bool :=
  let results :=
    (kg.artigos.filter fun r => containsSub (pyUpper r.1) (pyUpper processo)).map Prod.snd
  if results.isEmpty then false
  else
    match firstDigitRun artigo_ref with
    | none => false
    | some num => results.any fun a => containsSub a num

/-- Python `str.split()` (split on whitespace runs, no empty parts). -/
def splitWsF : ℕ → PyStr → List PyStr
  | 0, _ => []
  | _, [] => []
  | fuel + 1, c :: rest =>
    if isSpaceB c then splitWsF fuel rest
    else (c :: rest.takeWhile (fun x => ! isSpaceB x))
      :: splitWsF fuel (rest.dropWhile (fun x => ! isSpaceB x))

def splitWs (s : PyStr) : List PyStr := splitWsF (s.length + 1) s

/-- Model of `_verificar_tema`: empty result set fails; otherwise some stored
description shares ≥ 2 distinct tokens with the claim, or one is a
substring of the other (both lowercased). -/
def verificar_tema (kg : KG) (processo tema_desc : PyStr) : Bool :=
  let results :=
    (kg.temas.filter fun r => containsSub (pyUpper r.1) (pyUpper processo)).map Prod.snd
  if results.isEmpty then false
  else
    let tema_lower := pyLower tema_desc
    results.any fun d =>
      let desc_lower := pyLower d
      let palavras_tema := (splitWs tema_lower).eraseDups
      let palavras_kg := (splitWs desc_lower).eraseDups
      let overlap := palavras_tema.filter (fun w => palavras_kg.contains w)
      decide (2 ≤ overlap.length) || containsSub desc_lower tema_lower
        || containsSub tema_lower desc_lower

/-- The body of the `verificar_claims` loop for one claim: `verificado`
is set unconditionally, `encontrado_no_kg` per claim kind (an unknown
kind keeps its current value, as the Python loop mutates nothing for
it). -/
def verificarClaim1 (kg : KG) (claim : Claim) : Claim :=
  let c := { claim with verificado := true }
  if claim.tipo = pystr "processo" then
    { c with encontrado_no_kg := verificar_processo kg claim.processo }
  else if claim.tipo = pystr "relator" then
    { c with encontrado_no_kg := verificar_relator kg claim.processo claim.valor }
  else if claim.tipo = pystr "artigo" then
    { c with encontrado_no_kg := verificar_artigo kg claim.processo claim.valor }
  else if claim.tipo = pystr "tema" then
    { c with encontrado_no_kg := verificar_tema kg claim.processo claim.valor }
  else c

def verificar_claims (kg : KG) (claims : List Claim) : List Claim :=
  claims.map (verificarClaim1 kg)

/-! ### Negation check against the data source (`_verificar_claim_negativo`) -/

/-- The fixed synonym table of `_verificar_claim_negativo`. -/
def sinonimos : List (PyStr × List PyStr) :=
  [(pystr "maconha", [pystr "cannabis", pystr "canábis", pystr "marijuana", pystr "cânhamo"]),
   (pystr "cannabis", [pystr "maconha", pystr "canábis", pystr "marijuana", pystr "cânhamo"]),
   (pystr "medicinal",
     [pystr "medicinais", pystr "médico", pystr "médica", pystr "terapêutico", pystr "terapêutica"]),
   (pystr "medicinais",
     [pystr "medicinal", pystr "médico", pystr "médica", pystr "terapêutico", pystr "terapêutica"]),
   (pystr "cultivo", [pystr "plantio", pystr "plantar", pystr "cultivar", pystr "plantação"]),
   (pystr "drogas", [pystr "entorpecentes", pystr "narcóticos", pystr "substâncias"]),
   (pystr "saúde", [pystr "sanitário", pystr "sanitária", pystr "médico", pystr "médica"]),
   (pystr "penal", [pystr "criminal", pystr "crime", pystr "criminoso", pystr "delito"]),
   (pystr "preso", [pystr "presa", pystr "prisão", pystr "detido", pystr "detida", pystr "encarcerado"]),
   (pystr "liberdade", [pystr "soltura", pystr "solto", pystr "livre", pystr "liberação"])]

/-- The fixed stop-word set of `_verificar_claim_negativo`. -/
def stopwordsQ : List PyStr :=
  [pystr "quais", pystr "qual", pystr "que", pystr "como", pystr "onde", pystr "quando",
   pystr "decisões", pystr "decisão", pystr "decisoes", pystr "decisao", pystr "sobre",
   pystr "citam", pystr "cita", pystr "tratam", pystr "trata", pystr "são", pystr "sao",
   pystr "foram", pystr "pode", pystr "podem", pystr "tem", pystr "têm", pystr "dos",
   pystr "das", pystr "do", pystr "da", pystr "de", pystr "em", pystr "no", pystr "na",
   pystr "nos", pystr "nas", pystr "com", pystr "por", pystr "para", pystr "uma",
   pystr "um", pystr "os", pystr "as", pystr "se", pystr "ou", pystr "ao", pystr "aos",
   pystr "à", pystr "às", pystr "o", pystr "a", pystr "e", pystr "é", pystr "uso",
   pystr "tema", pystr "falam", pystr "fala"]

/-- Model of `palavras_query`: lowercased `\w+` tokens of the question, keeping
those of length > 2 that are not stop words (set modelled as a list up
to membership). -/
def palavras_query_of (query : PyStr) : List PyStr :=
  (findallWords query).filterMap fun p =>
    if 2 < p.length ∧ ¬ (stopwordsQ.contains (pyLower p)) then some (pyLower p) else none

def sinonimosGet (p : PyStr) : List PyStr :=
  match sinonimos.find? (fun kv => kv.1 == p) with
  | some kv => kv.2
  | none => []

/-- Model of `palavras_expandidas`: the query tokens together with the synonyms
of every token present in the table. -/
def palavras_expandidas_of (query : PyStr) : List PyStr :=
  let pq := palavras_query_of query
  pq ++ (pq.map sinonimosGet).flatten

/-- The per-row match decision inside the `_verificar_claim_negativo`
loop: exact expanded-token overlap, and otherwise the fallback
(substring, length ≥ 4) search that stops at the first hit. -/
def rowMatchCode (query : PyStr) (row : PyStr × PyStr) : Bool :=
  let palavras_expandidas := palavras_expandidas_of query
  let tema_lower := pyLower row.2
  let palavras_tema := findallWords tema_lower
  let overlap := palavras_expandidas.filter (fun p => palavras_tema.contains p)
  let overlap2 :=
    if overlap.isEmpty then
      match palavras_expandidas.find? (fun pq =>
        decide (4 ≤ pq.length)
          && palavras_tema.any (fun pt => containsSub pt pq || containsSub pq pt)) with
      | some pq => [pq]
      | none => []
    else overlap
  decide (1 ≤ overlap2.length)

/-- The negation claim appended for a matching (case, theme) row. -/
def mkNegClaim (row : PyStr × PyStr) : Claim :=
  { tipo := pystr "negação", processo := row.1,
    valor := pystr "Analista negou existência, mas KG tem: " ++ row.2,
    verificado := true, encontrado_no_kg := false }

/-- The single claim emitted when nothing in the data source matches. -/
def naClaim : Claim :=
  { tipo := pystr "negação", processo := pystr "N/A",
    valor := pystr "Analista negou existência — KG confirma ausência",
    verificado := true, encontrado_no_kg := true }

/-- Model of `_verificar_claim_negativo`: scan every (case, theme) row, append a
`negação` claim per match; fall back to the single `N/A` claim. -/
def verificar_claim_negativo (kg : KG) (query : PyStr) : List Claim :=
  let claims := kg.temas.foldl
    (fun claims row => if rowMatchCode query row then claims ++ [mkNegClaim row] else claims) []
  if claims.isEmpty then [naClaim] else claims

/-! ### `run_checker` -/

/-- Model of `run_checker(analyst_text, query)` against a knowledge graph `kg`. -/
def run_checker (kg : KG) (analyst_text : PyStr) (query : PyStr) : CheckerResult :=
  let negClaims :=
    if detectar_claim_negativo analyst_text then verificar_claim_negativo kg query else []
  let processos := extrair_processos_citados analyst_text
  let claims_positivos := verificar_claims kg (extrair_claims analyst_text processos)
  let claims := negClaims ++ claims_positivos
  let total := claims.length
  let ok := claims.countP (fun c => c.encontrado_no_kg)
  { total_claims := total, verificados_ok := ok, verificados_falha := total - ok,
    score := if 0 < total then (ok : ℚ) / (total : ℚ) * 100 else 0,
    claims := claims }

/-! ### `monitor.py`: QualityMetrics and the metrics parser -/

/-- The `QualityMetrics` dataclass (floats as `ℚ`, ints as `ℤ`). -/
structure QualityMetrics where
  validado : Bool := false
  score_fidelidade : ℚ := 0
  total_afirmacoes : Int := 0
  verificadas_ok : Int := 0
  sem_fundamentacao : Int := 0
  processos_verificados : List PyStr := []
  problemas : List PyStr := []
deriving DecidableEq, Repr

/-- Values produced by `json.loads` (Python ints and floats are distinct
types; floats as exact rationals). -/
inductive PyJson where
  | null
  | bool (b : Bool)
  | int (n : Int)
  | num (q : ℚ)
  | str (s : PyStr)
  | arr (elems : List PyJson)
  | obj (items : List (PyStr × PyJson))

def isJsonWsB (c : Char) : Bool := c = ' ' || c = '\t' || c = '\n' || c = '\r'

/-- JSON string body after the opening quote (standard escapes; `\u` is
not modelled, no input in this development uses it). -/
def parseJStringF : ℕ → PyStr → Option (PyStr × PyStr)
  | 0, _ => none
  | _, [] => none
  | fuel + 1, c :: t =>
    if c = '"' then some ([], t)
    else if c = '\\' then
      match t with
      | e :: t2 =>
        let esc := if e = 'n' then some '\n' else if e = 't' then some '\t'
          else if e = 'r' then some '\r' else if e = '"' then some '"'
          else if e = '\\' then some '\\' else if e = '/' then some '/'
          else if e = 'b' then some '\x08' else if e = 'f' then some '\x0c' else none
        match esc with
        | some ch =>
          match parseJStringF fuel t2 with
          | some (body, rest) => some (ch :: body, rest)
          | none => none
        | none => none
      | [] => none
    else
      match parseJStringF fuel t with
      | some (body, rest) => some (c :: body, rest)
      | none => none

def parseJString (s : PyStr) : Option (PyStr × PyStr) :=
  parseJStringF (s.length + 1) s

def digitsToNat (ds : PyStr) : ℕ :=
  ds.foldl (fun n c => n * 10 + (c.toNat - ('0' : Char).toNat)) 0

/-- JSON number (optional sign, digits, optional fraction; exponents are
not modelled, no input in this development uses them). -/
def parseJNumber (s : PyStr) : Option (PyJson × PyStr) :=
  let ns := match s with
    | '-' :: r => (true, r)
    | _ => (false, s)
  let ds := ns.2.takeWhile isDigitB
  if ds = [] then none
  else
    let s2 := ns.2.drop ds.length
    let intPart : ℚ := (digitsToNat ds : ℚ)
    match s2 with
    | '.' :: r =>
      let fs := r.takeWhile isDigitB
      if fs = [] then none
      else
        let q := intPart + (digitsToNat fs : ℚ) / ((10 : ℚ) ^ fs.length)
        some (.num (if ns.1 then -q else q), r.drop fs.length)
    | _ =>
      let n : Int := (digitsToNat ds : Int)
      some (.int (if ns.1 then -n else n), s2)

mutual

/-- Recursive-descent model of `json.loads` values; `fuel` bounds the
recursion (`2 * length + 2` always suffices, each level consuming input). -/
def parseJValue : ℕ → PyStr → Option (PyJson × PyStr)
  | 0, _ => none
  | fuel + 1, s0 =>
    let s := s0.dropWhile isJsonWsB
    match s with
    | [] => none
    | c :: t =>
      if pyStartsWith s (pystr "null") then some (.null, s.drop 4)
      else if pyStartsWith s (pystr "true") then some (.bool true, s.drop 4)
      else if pyStartsWith s (pystr "false") then some (.bool false, s.drop 5)
      else if c = '"' then
        match parseJString t with
        | some (body, rest) => some (.str body, rest)
        | none => none
      else if c = '[' then
        match t.dropWhile isJsonWsB with
        | ']' :: r => some (.arr [], r)
        | _ =>
          match parseJElems fuel t with
          | some (es, rest) => some (.arr es, rest)
          | none => none
      else if c = '\x7b' then
        match t.dropWhile isJsonWsB with
        | '\x7d' :: r => some (.obj [], r)
        | _ =>
          match parseJMembers fuel t with
          | some (ms, rest) => some (.obj ms, rest)
          | none => none
      else parseJNumber s

def parseJElems : ℕ → PyStr → Option (List PyJson × PyStr)
  | 0, _ => none
  | fuel + 1, s =>
    match parseJValue fuel s with
    | none => none
    | some (v, rest) =>
      match rest.dropWhile isJsonWsB with
      | ',' :: r2 =>
        match parseJElems fuel r2 with
        | some (es, r3) => some (v :: es, r3)
        | none => none
      | ']' :: r2 => some ([v], r2)
      | _ => none

def parseJMembers : ℕ → PyStr → Option (List (PyStr × PyJson) × PyStr)
  | 0, _ => none
  | fuel + 1, s =>
    match s.dropWhile isJsonWsB with
    | '"' :: t =>
      match parseJString t with
      | none => none
      | some (k, r1) =>
        match r1.dropWhile isJsonWsB with
        | ':' :: r3 =>
          match parseJValue fuel r3 with
          | none => none
          | some (v, r4) =>
            match r4.dropWhile isJsonWsB with
            | ',' :: r6 =>
              match parseJMembers fuel r6 with
              | some (ms, r7) => some ((k, v) :: ms, r7)
              | none => none
            | '\x7d' :: r6 => some ([(k, v)], r6)
            | _ => none
        | _ => none
    | _ => none

end

/-- Model of `json.loads`: a single value, with only whitespace allowed after. -/
def jsonLoads (s : PyStr) : Option PyJson :=
  match parseJValue (2 * s.length + 2) s with
  | some (v, rest) => if rest.dropWhile isJsonWsB = [] then some v else none
  | none => none

/-- Model of `dict.get(k, default)` on a parsed JSON object (duplicate keys:
the later binding wins, as in `json.loads`). -/
def dictGetD (items : List (PyStr × PyJson)) (k : PyStr) (d : PyJson) : PyJson :=
  match items.reverse.find? (fun kv => kv.1 == k) with
  | some kv => kv.2
  | none => d

/-- Model of `float(x)` applied to a string (sign, digits, optional fraction;
`inf`/`nan`/exponents not modelled — no input here uses them). -/
def parseFloatStr (s : PyStr) : Option ℚ :=
  let s1 := pyStrip s
  let ns := match s1 with
    | '-' :: r => (true, r)
    | '+' :: r => (false, r)
    | _ => (false, s1)
  let ds := ns.2.takeWhile isDigitB
  let s2 := ns.2.drop ds.length
  match s2 with
  | '.' :: r =>
    let fs := r.takeWhile isDigitB
    if (ds = [] ∧ fs = []) ∨ r.drop fs.length ≠ [] then none
    else
      let q := (digitsToNat ds : ℚ) + (digitsToNat fs : ℚ) / ((10 : ℚ) ^ fs.length)
      some (if ns.1 then -q else q)
  | [] =>
    if ds = [] then none
    else some (if ns.1 then -(digitsToNat ds : ℚ) else (digitsToNat ds : ℚ))
  | _ => none

/-- Model of `int(x)` applied to a string (strict: sign and digits only). -/
def parseIntStr (s : PyStr) : Option Int :=
  let s1 := pyStrip s
  let ns := match s1 with
    | '-' :: r => (true, r)
    | '+' :: r => (false, r)
    | _ => (false, s1)
  let ds := ns.2.takeWhile isDigitB
  if ds = [] ∨ ns.2.drop ds.length ≠ [] then none
  else some (if ns.1 then -(digitsToNat ds : Int) else (digitsToNat ds : Int))

/-- Truncation toward zero, as Python `int()` on a float. -/
def ratTrunc (q : ℚ) : Int := if 0 ≤ q then ⌊q⌋ else -⌊-q⌋

/-- Model of `float(x)` on a JSON value; `none` models the `ValueError`/`TypeError`
that the caller catches. -/
def pyFloatOf : PyJson → Option ℚ
  | .num q => some q
  | .int n => some (n : ℚ)
  | .bool b => some (if b then 1 else 0)
  | .str s => parseFloatStr s
  | _ => none

/-- Model of `int(x)` on a JSON value. -/
def pyIntOf : PyJson → Option Int
  | .int n => some n
  | .num q => some (ratTrunc q)
  | .bool b => some (if b then 1 else 0)
  | .str s => parseIntStr s
  | _ => none

/-- List-of-strings field.  Python stores whatever value is present
without coercion; the typed model keeps the string elements of an array
and defaults anything else to `[]` (every input in this development is a
well-typed string array). -/
def strListD : PyJson → List PyStr
  | .arr l => l.filterMap fun j => match j with
      | .str s => some s
      | _ => none
  | _ => []

/-- Truthiness-free `validado` field: the raw value is stored by Python;
the typed model reads a boolean and defaults anything else to `false`
(every input in this development is a genuine boolean). -/
def boolD : PyJson → Bool
  | .bool b => b
  | _ => false

/-- The `QualityMetrics(...)` construction inside the `try:` block;
`none` models a raised `ValueError`/`TypeError` (caught by the caller). -/
def buildMetricsFromObj (items : List (PyStr × PyJson)) : Option QualityMetrics :=
  match pyFloatOf (dictGetD items (pystr "score_fidelidade") (.num 0)),
        pyIntOf (dictGetD items (pystr "total_afirmacoes") (.int 0)),
        pyIntOf (dictGetD items (pystr "verificadas_ok") (.int 0)),
        pyIntOf (dictGetD items (pystr "sem_fundamentacao") (.int 0)) with
  | some sf, some ta, some vo, some sfu =>
    some { validado := boolD (dictGetD items (pystr "validado") (.bool false)),
           score_fidelidade := sf, total_afirmacoes := ta, verificadas_ok := vo,
           sem_fundamentacao := sfu,
           processos_verificados :=
             strListD (dictGetD items (pystr "processos_verificados") (.arr [])),
           problemas := strListD (dictGetD items (pystr "problemas") (.arr [])) }
  | _, _, _, _ => none

/-! ### The three extraction strategies of `parse_metrics_from_review` -/

/-- Offset of the first occurrence of `pat` in `s`. -/
def idxOfSub : PyStr → PyStr → Option ℕ
  | s, pat =>
    match s with
    | [] => if pat = [] then some 0 else none
    | _ :: t =>
      if pyStartsWith s pat then some 0
      else (idxOfSub t pat).map (· + 1)

/-- The lazy `(.*?)\n?```​` tail of strategy 1: the shortest content
whose end is followed by the fence, an optional newline first. -/
def s1ScanContent : ℕ → PyStr → Option PyStr
  | 0, _ => none
  | fuel + 1, rem =>
    if pyStartsWith rem ('\n' :: pystr "```") then some []
    else if pyStartsWith rem (pystr "```") then some []
    else match rem with
      | [] => none
      | c :: t =>
        match s1ScanContent fuel t with
        | some g => some (c :: g)
        | none => none

/-- Strategy 1: `re.search(r"```quality_metrics\s*\n?(.*?)\n?```", s, re.DOTALL)`.
Only the first marker occurrence needs trying: if no closing fence
follows it, none follows any later occurrence either (and any later
marker occurrence would itself supply a closing fence to the first). -/
def strategy1 (s : PyStr) : Option PyStr :=
  match idxOfSub s (pystr "```quality_metrics") with
  | none => none
  | some i =>
    let body := (s.drop (i + (pystr "```quality_metrics").length)).dropWhile isSpaceB
    s1ScanContent (body.length + 1) body

/-- Strategy 2 anchored at one position:
`​```(?:json)?\s*\n?(\{[^}]*score_fidelidade[^}]*\})\n?```​`.
The `(?:json)?` paths are mutually exclusive (the absent path needs `{`
next, which `json…` is not), and after the greedy `\s*` the optional
newline is spent.  The closing brace of the group is necessarily the
first `}` after the `{`. -/
def s2TryAt (rem : PyStr) : Option PyStr :=
  if pyStartsWith rem (pystr "```") then
    let r0 := rem.drop 3
    let r1 := if pyStartsWith r0 (pystr "json") then r0.drop 4 else r0
    match r1.dropWhile isSpaceB with
    | '\x7b' :: t =>
      let inner := t.takeWhile (fun c => c ≠ '\x7d')
      match t.drop inner.length with
      | '\x7d' :: r3 =>
        if containsSub inner (pystr "score_fidelidade") then
          if pyStartsWith r3 ('\n' :: pystr "```") || pyStartsWith r3 (pystr "```") then
            some ('\x7b' :: (inner ++ ['\x7d']))
          else none
        else none
      | _ => none
    | _ => none
  else none

/-- Leftmost-start search: try the anchored matcher at every suffix. -/
def anySuffixFind (f : PyStr → Option PyStr) : PyStr → Option PyStr
  | [] => f []
  | c :: t =>
    match f (c :: t) with
    | some g => some g
    | none => anySuffixFind f t

def strategy2 (s : PyStr) : Option PyStr := anySuffixFind s2TryAt s

/-- The lazy `\[.*?\]\s*\}` tail of strategy 3. -/
def s3InnerScan : ℕ → PyStr → Option (PyStr × PyStr)
  | 0, _ => none
  | fuel + 1, rem =>
    match rem with
    | [] => none
    | c :: t =>
      if c = ']' then
        let sp := t.takeWhile isSpaceB
        match t.drop sp.length with
        | '\x7d' :: r => some (']' :: (sp ++ ['\x7d']), r)
        | _ =>
          match s3InnerScan fuel t with
          | some (g, r) => some (c :: g, r)
          | none => none
      else
        match s3InnerScan fuel t with
        | some (g, r) => some (c :: g, r)
        | none => none

/-- The fixed continuation `"problemas"\s*:\s*\[` of strategy 3 at one
position, followed by the lazy bracket tail. -/
def s3ContAt (rem : PyStr) : Option (PyStr × PyStr) :=
  if pyStartsWith rem (pystr "\"problemas\"") then
    let r0 := rem.drop (pystr "\"problemas\"").length
    let sp1 := r0.takeWhile isSpaceB
    match r0.drop sp1.length with
    | ':' :: r1 =>
      let sp2 := r1.takeWhile isSpaceB
      match r1.drop sp2.length with
      | '[' :: r2 =>
        match s3InnerScan (r2.length + 1) r2 with
        | some (g, rest) =>
          some ((pystr "\"problemas\"") ++ sp1 ++ ':' :: sp2 ++ '[' :: g, rest)
        | none => none
      | _ => none
    | _ => none
  else none

/-- The outer lazy `.*?` of strategy 3: grow until the continuation
matches. -/
def s3TailScan : ℕ → PyStr → Option PyStr
  | 0, _ => none
  | fuel + 1, rem =>
    match s3ContAt rem with
    | some (g, _) => some g
    | none =>
      match rem with
      | [] => none
      | c :: t =>
        match s3TailScan fuel t with
        | some g => some (c :: g)
        | none => none

/-- Strategy 3 anchored at one position:
`(\{"validado".*?"problemas"\s*:\s*\[.*?\]\s*\})` under `re.DOTALL`. -/
def s3TryAt (rem : PyStr) : Option PyStr :=
  if pyStartsWith rem (pystr "\x7b\"validado\"") then
    let r0 := rem.drop (pystr "\x7b\"validado\"").length
    match s3TailScan (r0.length + 1) r0 with
    | some g => some ((pystr "\x7b\"validado\"") ++ g)
    | none => none
  else none

def strategy3 (s : PyStr) : Option PyStr := anySuffixFind s3TryAt s

/-- The strategy cascade of `parse_metrics_from_review`: later
strategies are consulted only when the earlier pattern finds no match. -/
def selectFragment (reviewer_text : PyStr) : Option PyStr :=
  match strategy1 reviewer_text with
  | some g => some g
  | none =>
    match strategy2 reviewer_text with
    | some g => some g
    | none => strategy3 reviewer_text

/-- Outcome of `parse_metrics_from_review`: a returned value, or the
`AttributeError` that escapes when the decoded fragment is not an
object. -/
inductive ParseOutcome where
  | ok (m : QualityMetrics)
  | attrError
deriving DecidableEq, Repr

/-- Model of `parse_metrics_from_review`: pick a fragment by the strategy
cascade; no fragment, a JSON decode failure, or a coercion failure all
yield default metrics; a fragment decoding to a non-object raises
`AttributeError` at `data.get` (not caught by the `except` clause, which
lists only `JSONDecodeError`, `ValueError` and `TypeError`). -/
def parse_metrics_from_review (reviewer_text : PyStr) : ParseOutcome :=
  match selectFragment reviewer_text with
  | none => .ok {}
  | some frag =>
    match jsonLoads (pyStrip frag) with
    | none => .ok {}
    | some (.obj items) =>
      match buildMetricsFromObj items with
      | some m => .ok m
      | none => .ok {}
    | some _ => .attrError

/-- Modelled from the spec (§4.7), for refinement comparison only — this
is what the specification describes, not what the source does: each
strategy is tried in order and must yield a syntactically valid object
to win; *any* failure (no pattern match, JSON decode error, coercion
error, non-object value) falls through to the next strategy, and
exhausting all three yields the fully-defaulted metrics. -/
def tryStrategySpec (frag? : Option PyStr) : Option QualityMetrics :=
  match frag? with
  | none => none
  | some frag =>
    match jsonLoads (pyStrip frag) with
    | some (.obj items) => buildMetricsFromObj items
    | _ => none

/-- Modelled from the spec (§4.7); see `tryStrategySpec`. -/
def parse_metrics_spec (reviewer_text : PyStr) : QualityMetrics :=
  match tryStrategySpec (strategy1 reviewer_text) with
  | some m => m
  | none =>
    match tryStrategySpec (strategy2 reviewer_text) with
    | some m => m
    | none =>
      match tryStrategySpec (strategy3 reviewer_text) with
      | some m => m
      | none => {}

/-- The claim hypothesis for C3 as corrected: either no strategy's
pattern matched, or the matched fragment fails to decode. -/
def noUsableFragment (s : PyStr) : Bool :=
  match selectFragment s with
  | none => true
  | some frag => (jsonLoads (pyStrip frag)).isNone

/-! ### Quality log store (`log_quality`, `load_quality_log`,
`print_quality_report`) -/

/-- The `QualityLogEntry` dataclass (timestamp kept abstract: the source
takes `datetime.now().isoformat()`, an input of the model). -/
structure QualityLogEntry where
  timestamp : PyStr
  query : PyStr
  metrics : QualityMetrics
  analyst_chars : Int := 0
  reviewer_chars : Int := 0
deriving DecidableEq, Repr

/-- Serialization `asdict` of a `QualityMetrics` (dataclass field order). -/
def metricsToJson (m : QualityMetrics) : PyJson :=
  .obj [(pystr "validado", .bool m.validado),
        (pystr "score_fidelidade", .num m.score_fidelidade),
        (pystr "total_afirmacoes", .int m.total_afirmacoes),
        (pystr "verificadas_ok", .int m.verificadas_ok),
        (pystr "sem_fundamentacao", .int m.sem_fundamentacao),
        (pystr "processos_verificados", .arr (m.processos_verificados.map .str)),
        (pystr "problemas", .arr (m.problemas.map .str))]

/-- Serialization `asdict` of a `Claim`. -/
def claimToJson (c : Claim) : PyJson :=
  .obj [(pystr "tipo", .str c.tipo), (pystr "processo", .str c.processo),
        (pystr "valor", .str c.valor), (pystr "verificado", .bool c.verificado),
        (pystr "encontrado_no_kg", .bool c.encontrado_no_kg)]

/-- Model of `checker_result_to_dict`. -/
def checker_result_to_dict (r : CheckerResult) : PyJson :=
  .obj [(pystr "total_claims", .int (r.total_claims : Int)),
        (pystr "verificados_ok", .int (r.verificados_ok : Int)),
        (pystr "verificados_falha", .int (r.verificados_falha : Int)),
        (pystr "score", .num r.score),
        (pystr "concordancia_llm", .num r.concordancia_llm),
        (pystr "claims", .arr (r.claims.map claimToJson))]

/-- The dictionary written for one log line (`asdict(entry)` plus the
optional `checker` key). -/
def entryToJson (e : QualityLogEntry) (checker : Option CheckerResult) : PyJson :=
  .obj ([(pystr "timestamp", .str e.timestamp),
         (pystr "query", .str e.query),
         (pystr "metrics", metricsToJson e.metrics),
         (pystr "analyst_chars", .int e.analyst_chars),
         (pystr "reviewer_chars", .int e.reviewer_chars)] ++
        (match checker with
         | some r => [(pystr "checker", checker_result_to_dict r)]
         | none => []))

/-- The JSONL file, modelled as the sequence of JSON values of its
lines (the byte-level `json.dumps`/`json.loads` round trip of one line
is the json library's and is not re-modelled; blank lines and lines that
fail to decode appear here as absent). -/
abbrev LogFile := List PyJson

/-- Model of `log_quality`: append one entry record ( `analyst_chars` /
`reviewer_chars` are the lengths of the two texts). -/
def log_quality (file : LogFile) (ts query : PyStr) (metrics : QualityMetrics)
    (analyst_text reviewer_text : PyStr) (checker : Option CheckerResult) : LogFile :=
  file ++ [entryToJson
    { timestamp := ts, query := query, metrics := metrics,
      analyst_chars := (analyst_text.length : Int),
      reviewer_chars := (reviewer_text.length : Int) } checker]

def dictFind (items : List (PyStr × PyJson)) (k : PyStr) : Option PyJson :=
  match items.reverse.find? (fun kv => kv.1 == k) with
  | some kv => some kv.2
  | none => none

/-- Typed readers used when reloading a line.  Python's dataclass
`**`-construction stores present values without checking their types;
the typed model instead rejects a line with an ill-typed field (a line
this development writes is always well-typed, so the difference is
unobservable here). -/
def getBoolD (items : List (PyStr × PyJson)) (k : PyStr) (d : Bool) : Option Bool :=
  match dictFind items k with
  | none => some d
  | some (.bool b) => some b
  | some _ => none

def getRatD (items : List (PyStr × PyJson)) (k : PyStr) (d : ℚ) : Option ℚ :=
  match dictFind items k with
  | none => some d
  | some (.num q) => some q
  | some (.int n) => some (n : ℚ)
  | some _ => none

def getIntD (items : List (PyStr × PyJson)) (k : PyStr) (d : Int) : Option Int :=
  match dictFind items k with
  | none => some d
  | some (.int n) => some n
  | some _ => none

def getStrListD (items : List (PyStr × PyJson)) (k : PyStr) : Option (List PyStr) :=
  match dictFind items k with
  | none => some []
  | some (.arr l) =>
    l.foldr (fun j acc => match j, acc with
      | .str s, some ss => some (s :: ss)
      | _, _ => none) (some [])
  | some _ => none

def metricsFieldNames : List PyStr :=
  [pystr "validado", pystr "score_fidelidade", pystr "total_afirmacoes",
   pystr "verificadas_ok", pystr "sem_fundamentacao",
   pystr "processos_verificados", pystr "problemas"]

/-- Construction `QualityMetrics(**d)`: every present key must be a dataclass field
(otherwise `TypeError`, so the line is skipped), absent fields take
their defaults. -/
def metricsOfJson : PyJson → Option QualityMetrics
  | .obj items =>
    if items.all (fun kv => metricsFieldNames.contains kv.1) then
      (getBoolD items (pystr "validado") false).bind fun v =>
      (getRatD items (pystr "score_fidelidade") 0).bind fun sf =>
      (getIntD items (pystr "total_afirmacoes") 0).bind fun ta =>
      (getIntD items (pystr "verificadas_ok") 0).bind fun vo =>
      (getIntD items (pystr "sem_fundamentacao") 0).bind fun sfu =>
      (getStrListD items (pystr "processos_verificados")).bind fun pv =>
      (getStrListD items (pystr "problemas")).bind fun pr =>
      some { validado := v, score_fidelidade := sf, total_afirmacoes := ta,
             verificadas_ok := vo, sem_fundamentacao := sfu,
             processos_verificados := pv, problemas := pr }
    else none
  | _ => none

/-- Reconstruction of one line inside the `try:` of `load_quality_log`;
`none` models the caught `KeyError`/`TypeError` (line skipped). -/
def loadEntry : PyJson → Option QualityLogEntry
  | .obj items =>
    match dictFind items (pystr "timestamp"), dictFind items (pystr "query") with
    | some (.str ts), some (.str q) =>
      (metricsOfJson (dictGetD items (pystr "metrics") (.obj []))).bind fun m =>
      (getIntD items (pystr "analyst_chars") 0).bind fun ac =>
      (getIntD items (pystr "reviewer_chars") 0).bind fun rc =>
      some { timestamp := ts, query := q, metrics := m,
             analyst_chars := ac, reviewer_chars := rc }
    | _, _ => none
  | _ => none

/-- Model of `load_quality_log`: reload every line, skipping malformed ones. -/
def load_quality_log (file : LogFile) : List QualityLogEntry :=
  file.filterMap loadEntry

/-- The numbers printed by `print_quality_report`. -/
structure ReportStats where
  entradas : ℕ
  score_medio : ℚ
  score_min : ℚ
  score_max : ℚ
  total_claims : Int
  total_ok : Int
  total_problems : Int
  validated : ℕ
deriving DecidableEq, Repr

/-- Model of `print_quality_report`: `none` when the log is empty (the source
prints a notice and returns); otherwise the aggregate statistics
(`mean = sum/len`, `min`, `max` over the loaded fidelity scores). -/
def print_quality_report_stats (file : LogFile) : Option ReportStats :=
  let entries := load_quality_log file
  match entries with
  | [] => none
  | e0 :: rest =>
    let scores := (e0 :: rest).map (fun e => e.metrics.score_fidelidade)
    some { entradas := (e0 :: rest).length,
           score_medio := scores.sum / (scores.length : ℚ),
           score_min := (rest.map (fun e => e.metrics.score_fidelidade)).foldl min
             e0.metrics.score_fidelidade,
           score_max := (rest.map (fun e => e.metrics.score_fidelidade)).foldl max
             e0.metrics.score_fidelidade,
           total_claims := ((e0 :: rest).map (fun e => e.metrics.total_afirmacoes)).sum,
           total_ok := ((e0 :: rest).map (fun e => e.metrics.verificadas_ok)).sum,
           total_problems := ((e0 :: rest).map (fun e => e.metrics.sem_fundamentacao)).sum,
           validated := (e0 :: rest).countP (fun e => e.metrics.validado) }

/-- One `log_quality` call's arguments (timestamp supplied, as
`datetime.now()` is an input of the model). -/
structure WriteArgs where
  ts : PyStr
  query : PyStr
  metrics : QualityMetrics
  analyst_text : PyStr := []
  reviewer_text : PyStr := []
  checker : Option CheckerResult := none
deriving DecidableEq

/-- Write a sequence of entries into an initially empty log. -/
def writeAll (args : List WriteArgs) : LogFile :=
  args.foldl
    (fun file a => log_quality file a.ts a.query a.metrics a.analyst_text a.reviewer_text a.checker)
    []

/-- Python `min(l)` / `max(l)` on a nonempty list. -/
def pyMinL : List ℚ → Option ℚ
  | [] => none
  | x :: xs => some (xs.foldl min x)

def pyMaxL : List ℚ → Option ℚ
  | [] => none
  | x :: xs => some (xs.foldl max x)

/-! ### Round-trip lemmas for the log store -/

theorem strListRound (l : List PyStr) :
    (l.map PyJson.str).foldr (fun j acc => match j, acc with
      | .str s, some ss => some (s :: ss)
      | _, _ => none) (some []) = some l := by
  induction l with
  | nil => rfl
  | cons a t ih => simp only [List.map_cons, List.foldr_cons, ih]

theorem metricsOfJson_metricsToJson (m : QualityMetrics) :
    metricsOfJson (metricsToJson m) = some m := by
  obtain ⟨v, sf, ta, vo, sfu, pv, pr⟩ := m
  have hred : metricsOfJson (metricsToJson ⟨v, sf, ta, vo, sfu, pv, pr⟩)
      = (getStrListD [(pystr "validado", .bool v),
            (pystr "score_fidelidade", .num sf),
            (pystr "total_afirmacoes", .int ta),
            (pystr "verificadas_ok", .int vo),
            (pystr "sem_fundamentacao", .int sfu),
            (pystr "processos_verificados", .arr (pv.map .str)),
            (pystr "problemas", .arr (pr.map .str))] (pystr "processos_verificados")).bind
          (fun pv2 =>
            (getStrListD [(pystr "validado", .bool v),
              (pystr "score_fidelidade", .num sf),
              (pystr "total_afirmacoes", .int ta),
              (pystr "verificadas_ok", .int vo),
              (pystr "sem_fundamentacao", .int sfu),
              (pystr "processos_verificados", .arr (pv.map .str)),
              (pystr "problemas", .arr (pr.map .str))] (pystr "problemas")).bind
            (fun pr2 =>
              some { validado := v, score_fidelidade := sf, total_afirmacoes := ta,
                     verificadas_ok := vo, sem_fundamentacao := sfu,
                     processos_verificados := pv2, problemas := pr2 })) := rfl
  rw [hred]
  rw [show getStrListD [(pystr "validado", .bool v),
            (pystr "score_fidelidade", .num sf),
            (pystr "total_afirmacoes", .int ta),
            (pystr "verificadas_ok", .int vo),
            (pystr "sem_fundamentacao", .int sfu),
            (pystr "processos_verificados", .arr (pv.map .str)),
            (pystr "problemas", .arr (pr.map .str))] (pystr "processos_verificados")
          = some pv from strListRound pv]
  rw [show getStrListD [(pystr "validado", .bool v),
            (pystr "score_fidelidade", .num sf),
            (pystr "total_afirmacoes", .int ta),
            (pystr "verificadas_ok", .int vo),
            (pystr "sem_fundamentacao", .int sfu),
            (pystr "processos_verificados", .arr (pv.map .str)),
            (pystr "problemas", .arr (pr.map .str))] (pystr "problemas")
          = some pr from strListRound pr]
  rfl

theorem loadEntry_entryToJson (e : QualityLogEntry) (ck : Option CheckerResult) :
    loadEntry (entryToJson e ck) = some e := by
  obtain ⟨ts, q, m, ac, rc⟩ := e
  cases ck with
  | none =>
    have hred : loadEntry (entryToJson ⟨ts, q, m, ac, rc⟩ none)
        = (metricsOfJson (metricsToJson m)).bind
            (fun mm => some ⟨ts, q, mm, ac, rc⟩) := rfl
    rw [hred, metricsOfJson_metricsToJson]
    rfl
  | some r =>
    have hred : loadEntry (entryToJson ⟨ts, q, m, ac, rc⟩ (some r))
        = (metricsOfJson (metricsToJson m)).bind
            (fun mm => some ⟨ts, q, mm, ac, rc⟩) := rfl
    rw [hred, metricsOfJson_metricsToJson]
    rfl

/-! ### Helper lemmas on the checker pipeline -/

theorem foldl_append_singleton {α β : Type} (g : α → β) (p : α → Bool) (l : List α)
    (init : List β) :
    l.foldl (fun acc row => if p row then acc ++ [g row] else acc) init
      = init ++ (l.filter p).map g := by
  induction l generalizing init with
  | nil => simp
  | cons a t ih =>
    simp only [List.foldl_cons, List.filter_cons]
    by_cases h : p a
    · rw [if_pos h, ih, if_pos h]
      simp
    · rw [if_neg h, ih, if_neg h]

/-- The append loop of `_verificar_claim_negativo` is the filter-map of
its row predicate, with the `N/A` fallback on the empty result. -/
theorem verificar_claim_negativo_eq (kg : KG) (q : PyStr) :
    verificar_claim_negativo kg q
      = (if (kg.temas.filter (rowMatchCode q)).isEmpty then [naClaim]
         else (kg.temas.filter (rowMatchCode q)).map mkNegClaim) := by
  unfold verificar_claim_negativo
  rw [foldl_append_singleton mkNegClaim (rowMatchCode q) kg.temas []]
  cases h : kg.temas.filter (rowMatchCode q) with
  | nil => simp
  | cons a t => simp

theorem mem_negativo_fields (kg : KG) (q : PyStr) (c : Claim)
    (hc : c ∈ verificar_claim_negativo kg q) :
    c.tipo = pystr "negação" ∧ c.verificado = true := by
  rw [verificar_claim_negativo_eq] at hc
  by_cases h : (kg.temas.filter (rowMatchCode q)).isEmpty
  · rw [if_pos h] at hc
    have := List.mem_singleton.mp hc
    subst this
    exact ⟨rfl, rfl⟩
  · rw [if_neg h] at hc
    obtain ⟨row, _, rfl⟩ := List.mem_map.mp hc
    exact ⟨rfl, rfl⟩

theorem verificarClaim1_tipo (kg : KG) (c : Claim) :
    (verificarClaim1 kg c).tipo = c.tipo := by
  unfold verificarClaim1
  repeat' split
  all_goals rfl

theorem verificarClaim1_verificado (kg : KG) (c : Claim) :
    (verificarClaim1 kg c).verificado = true := by
  unfold verificarClaim1
  repeat' split
  all_goals rfl

theorem mem_rawClaims_tipo (texto : PyStr) (ps : List PyStr) (c : Claim)
    (hc : c ∈ rawClaims texto ps) :
    c.tipo = pystr "processo" ∨ c.tipo = pystr "relator" ∨ c.tipo = pystr "artigo" := by
  unfold rawClaims at hc
  rcases List.mem_append.mp hc with h | h
  · rcases List.mem_append.mp h with h1 | h1
    · obtain ⟨p, _, rfl⟩ := List.mem_map.mp h1
      left
      rfl
    · obtain ⟨mm, _, he⟩ := List.mem_filterMap.mp h1
      right
      left
      split at he
      · split at he
        · cases he
          rfl
        · cases he
      · cases he
  · obtain ⟨mm, _, he⟩ := List.mem_filterMap.mp h
    right
    right
    split at he
    · split at he
      · cases he
        rfl
      · cases he
    · cases he

theorem dedupClaimsAux_subset : ∀ (l : List Claim) (seen : List (PyStr × PyStr × PyStr))
    (c : Claim), c ∈ dedupClaimsAux l seen → c ∈ l := by
  intro l
  induction l with
  | nil =>
    intro seen c hc
    cases hc
  | cons a t ih =>
    intro seen c hc
    unfold dedupClaimsAux at hc
    by_cases h : claimKey a ∈ seen
    · rw [if_pos h] at hc
      exact List.mem_cons_of_mem a (ih seen c hc)
    · rw [if_neg h] at hc
      rcases List.mem_cons.mp hc with hc | hc
      · exact hc ▸ List.mem_cons_self a t
      · exact List.mem_cons_of_mem a (ih _ c hc)

theorem dedupClaimsAux_keys : ∀ (l : List Claim) (seen : List (PyStr × PyStr × PyStr)),
    ((dedupClaimsAux l seen).map claimKey).Nodup
    ∧ ∀ k ∈ (dedupClaimsAux l seen).map claimKey, k ∉ seen := by
  intro l
  induction l with
  | nil =>
    intro seen
    exact ⟨List.nodup_nil, by intro k hk; cases hk⟩
  | cons a t ih =>
    intro seen
    unfold dedupClaimsAux
    by_cases h : claimKey a ∈ seen
    · rw [if_pos h]
      exact ih seen
    · rw [if_neg h]
      obtain ⟨ihnd, ihnotin⟩ := ih (claimKey a :: seen)
      refine ⟨?_, ?_⟩
      · rw [List.map_cons, List.nodup_cons]
        refine ⟨?_, ihnd⟩
        intro hmem
        exact (ihnotin _ hmem) (List.mem_cons_self _ _)
      · intro k hk
        rw [List.map_cons] at hk
        rcases List.mem_cons.mp hk with hk | hk
        · exact hk ▸ h
        · intro hks
          exact (ihnotin k hk) (List.mem_cons_of_mem _ hks)

theorem dedupClaimsAux_complete : ∀ (l : List Claim) (seen : List (PyStr × PyStr × PyStr))
    (c : Claim), c ∈ l → claimKey c ∉ seen →
    ∃ c2 ∈ dedupClaimsAux l seen, claimKey c2 = claimKey c := by
  intro l
  induction l with
  | nil =>
    intro seen c hc
    cases hc
  | cons a t ih =>
    intro seen c hc hns
    unfold dedupClaimsAux
    by_cases h : claimKey a ∈ seen
    · rw [if_pos h]
      rcases List.mem_cons.mp hc with hc | hc
      · rw [hc] at hns
        exact absurd h hns
      · exact ih seen c hc hns
    · rw [if_neg h]
      rcases List.mem_cons.mp hc with hc | hc
      · exact ⟨a, List.mem_cons_self _ _, by rw [hc]⟩
      · by_cases hk : claimKey c = claimKey a
        · exact ⟨a, List.mem_cons_self _ _, hk.symm⟩
        · obtain ⟨c2, hc2, hkc2⟩ := ih (claimKey a :: seen) c hc (by
            intro hmem
            rcases List.mem_cons.mp hmem with hmem | hmem
            · exact hk hmem
            · exact hns hmem)
          exact ⟨c2, List.mem_cons_of_mem _ hc2, hkc2⟩

theorem extrair_claims_nil_processos (texto : PyStr) : extrair_claims texto [] = [] := by
  unfold extrair_claims rawClaims procClaimsOf relatorClaimsOf artigoClaimsOf
  rw [List.filterMap_eq_nil_iff.mpr, List.filterMap_eq_nil_iff.mpr, List.map_nil]
  · rfl
  · intro m _
    rfl
  · intro m _
    rfl

/-! ### Claim theorems -/

/-- C1: in every `CheckerResult` returned by `run_checker`, `total_claims`
is the length of its own claim list, `verificados_ok` is the number of
confirmed claims in that list, and `score` is exactly
`verificados_ok / total_claims * 100`, defined as `0` when
`total_claims = 0` (in particular when no claims are extractable). -/
theorem checker_score_formula (kg : KG) (analyst_text query : PyStr) :
    (run_checker kg analyst_text query).total_claims
        = (run_checker kg analyst_text query).claims.length
    ∧ (run_checker kg analyst_text query).verificados_ok
        = (run_checker kg analyst_text query).claims.countP (fun c => c.encontrado_no_kg)
    ∧ (run_checker kg analyst_text query).score
        = (if (run_checker kg analyst_text query).total_claims = 0 then 0
           else ((run_checker kg analyst_text query).verificados_ok : ℚ)
             / ((run_checker kg analyst_text query).total_claims : ℚ) * 100) := by
  refine ⟨rfl, rfl, ?_⟩
  have hscore : (run_checker kg analyst_text query).score
      = (if 0 < (run_checker kg analyst_text query).total_claims
         then ((run_checker kg analyst_text query).verificados_ok : ℚ)
           / ((run_checker kg analyst_text query).total_claims : ℚ) * 100 else 0) := rfl
  rw [hscore]
  by_cases h : (run_checker kg analyst_text query).total_claims = 0
  · rw [if_pos h, h]
    norm_num
  · rw [if_neg h, if_pos (Nat.pos_of_ne_zero h)]

/-- C2: every claim in a `run_checker` result that is confirmed
(`encontrado_no_kg`) is verified (`verificado`); in fact the pipeline
marks every returned claim verified. -/
theorem checker_confirmed_implies_verified (kg : KG) (analyst_text query : PyStr) (c : Claim)
    (hmem : c ∈ (run_checker kg analyst_text query).claims)
    (hconf : c.encontrado_no_kg = true) :
    c.verificado = true := by
  have hc : c ∈ (if detectar_claim_negativo analyst_text
      then verificar_claim_negativo kg query else [])
      ++ verificar_claims kg
          (extrair_claims analyst_text (extrair_processos_citados analyst_text)) := hmem
  rcases List.mem_append.mp hc with h | h
  · split at h
    · exact (mem_negativo_fields kg query c h).2
    · cases h
  · unfold verificar_claims at h
    obtain ⟨c0, _, rfl⟩ := List.mem_map.mp h
    exact verificarClaim1_verificado kg c0

/-- Witness for C2: a concrete run whose result contains a confirmed
claim; the theorem applies to it. -/
theorem checker_confirmed_implies_verified_witness :
    naClaim ∈ (run_checker {} (pystr "não consta") (pystr "")).claims
    ∧ naClaim.encontrado_no_kg = true
    ∧ naClaim.verificado = true :=
  ⟨by decide, by decide,
   checker_confirmed_implies_verified {} (pystr "não consta") (pystr "") naClaim
     (by decide) (by decide)⟩

/-- C4 (amended): the claim list of `run_checker` is the negation-check
claims FIRST (present exactly when the negation detector triggers),
followed by the builder claims in extraction order as verified; every
claim of the first part has kind `negação` and every claim of the second
part has kind `processo`, `relator` or `artigo`.  Order is reproducible:
the embedding is a pure function of (data source, answer text, question). -/
theorem checker_claims_order (kg : KG) (analyst_text query : PyStr) :
    (run_checker kg analyst_text query).claims
        = (if detectar_claim_negativo analyst_text
           then verificar_claim_negativo kg query else [])
          ++ verificar_claims kg
              (extrair_claims analyst_text (extrair_processos_citados analyst_text))
    ∧ ((if detectar_claim_negativo analyst_text
        then verificar_claim_negativo kg query else []).all
          (fun c => c.tipo == pystr "negação")) = true
    ∧ ((verificar_claims kg
          (extrair_claims analyst_text (extrair_processos_citados analyst_text))).all
          (fun c => (c.tipo == pystr "processo") || (c.tipo == pystr "relator")
            || (c.tipo == pystr "artigo"))) = true := by
  refine ⟨rfl, ?_, ?_⟩
  · split
    · rw [List.all_eq_true]
      intro c hc
      have ht := (mem_negativo_fields kg query c hc).1
      simp [ht]
    · rfl
  · rw [List.all_eq_true]
    intro c hc
    unfold verificar_claims at hc
    obtain ⟨c0, hc0, rfl⟩ := List.mem_map.mp hc
    unfold extrair_claims at hc0
    have h0 := mem_rawClaims_tipo analyst_text _ c0 (dedupClaimsAux_subset _ _ _ hc0)
    rcases h0 with h | h | h <;> simp [verificarClaim1_tipo, h]

def kgC4 : KG := { processos := [pystr "HC 161"] }

/-- Counterexample to C4 as stated: on a concrete answer containing both
a negation phrase and a case number, the negation claim comes FIRST in
the result list and the builder claim LAST — negation claims are not
appended last. -/
theorem checker_order_counterexample :
    ((run_checker kgC4 (pystr "não consta. HC 161") (pystr "")).claims.map Claim.tipo)
        = [pystr "negação", pystr "processo"]
    ∧ ((run_checker kgC4 (pystr "não consta. HC 161") (pystr "")).claims.map Claim.tipo)
        ≠ [pystr "processo", pystr "negação"] :=
  ⟨by decide, by decide⟩

/-- C5: the proximity associator returns exactly the first case
identifier whose minimal occurrence distance to the reference offset is
globally minimal (`argminFirst`, ties to the identifier first in the
input list); it returns `none` on an empty identifier list, and with no
identifiers the claim builder drops every reporter/article reference
(producing no claims at all). -/
theorem associator_nearest_first (texto : PyStr) (pos : ℕ) (processos : List PyStr) :
    processo_mais_proximo texto pos processos = argminFirst (minDistTo texto pos) processos
    ∧ processo_mais_proximo texto pos ([] : List PyStr) = none
    ∧ extrair_claims texto [] = [] :=
  ⟨pmp_eq_argminFirst texto pos processos, rfl, extrair_claims_nil_processos texto⟩

/-- C6: when no (case, theme) pair of the data source matches the
expanded question keywords, the negation check emits exactly one
`negação` claim, confirmed, with subject `N/A`. -/
theorem negation_no_match_single_na (kg : KG) (query : PyStr)
    (h : kg.temas.all (fun row => ! rowMatchCode query row) = true) :
    verificar_claim_negativo kg query = [naClaim]
    ∧ naClaim.encontrado_no_kg = true
    ∧ naClaim.verificado = true
    ∧ naClaim.processo = pystr "N/A"
    ∧ naClaim.tipo = pystr "negação" := by
  refine ⟨?_, rfl, rfl, rfl, rfl⟩
  rw [verificar_claim_negativo_eq]
  have hf : kg.temas.filter (rowMatchCode query) = [] := by
    rw [List.filter_eq_nil_iff]
    intro a ha
    have hh := (List.all_eq_true.mp h) a ha
    simp at hh
    simp [hh]
  rw [hf]
  rfl

def kgC6 : KG := { temas := [(pystr "HC 1", pystr "zzz")] }

/-- Witness for C6: a data source whose single theme row matches nothing
in the question `cannabis`. -/
theorem negation_no_match_single_na_witness :
    (kgC6.temas.all (fun row => ! rowMatchCode (pystr "cannabis") row) = true)
    ∧ verificar_claim_negativo kgC6 (pystr "cannabis") = [naClaim] :=
  ⟨by decide,
   (negation_no_match_single_na kgC6 (pystr "cannabis") (by decide)).1⟩

/-- C8: the claims produced by one extraction pass have pairwise
distinct deduplication keys `(kind, subject case, lowercased value)`,
and every reference collected before deduplication (in particular a
repeated one) is represented by exactly one claim with its key. -/
theorem extrair_claims_dedup_keys (texto : PyStr) (processos : List PyStr) :
    ((extrair_claims texto processos).map claimKey).Nodup
    ∧ ((rawClaims texto processos).all
        (fun c => (extrair_claims texto processos).any
          (fun c2 => claimKey c2 == claimKey c))) = true := by
  constructor
  · exact (dedupClaimsAux_keys (rawClaims texto processos) []).1
  · rw [List.all_eq_true]
    intro c hc
    obtain ⟨c2, hc2, hk⟩ := dedupClaimsAux_complete (rawClaims texto processos) [] c hc
      (by intro h; cases h)
    rw [List.any_eq_true]
    exact ⟨c2, hc2, by simp [hk]⟩

/-! ### C7: the negation row-match rule -/

/-- The claim's match criterion, stated directly: the expanded token set
intersects the description's token set, or some expanded token of length
≥ 4 is a substring of, or contains, some description token. -/
def negMatchCriterionB (query : PyStr) (row : PyStr × PyStr) : Bool :=
  (palavras_expandidas_of query).any
    (fun t => (findallWords (pyLower row.2)).contains t)
  || (palavras_expandidas_of query).any
    (fun pq => decide (4 ≤ pq.length)
      && (findallWords (pyLower row.2)).any
        (fun pt => containsSub pt pq || containsSub pq pt))

theorem rowMatch_iff_criterion (query : PyStr) (row : PyStr × PyStr) :
    rowMatchCode query row = negMatchCriterionB query row := by
  unfold rowMatchCode negMatchCriterionB
  simp only []
  by_cases h : ((palavras_expandidas_of query).filter
      (fun p => (findallWords (pyLower row.2)).contains p)).isEmpty
  · rw [if_pos h]
    have hnone : ∀ a ∈ palavras_expandidas_of query,
        ¬ ((findallWords (pyLower row.2)).contains a = true) := by
      intro a ha
      have hf := List.isEmpty_iff.mp h
      intro hca
      have : a ∈ (palavras_expandidas_of query).filter
          (fun p => (findallWords (pyLower row.2)).contains p) :=
        List.mem_filter.mpr ⟨ha, hca⟩
      rw [hf] at this
      cases this
    have hany1 : (palavras_expandidas_of query).any
        (fun t => (findallWords (pyLower row.2)).contains t) = false := by
      rw [List.any_eq_false]
      exact hnone
    rw [hany1, Bool.false_or]
    cases hfind : (palavras_expandidas_of query).find? (fun pq => decide (4 ≤ pq.length)
        && (findallWords (pyLower row.2)).any
          (fun pt => containsSub pt pq || containsSub pq pt)) with
    | none =>
      have hany2 : (palavras_expandidas_of query).any (fun pq => decide (4 ≤ pq.length)
          && (findallWords (pyLower row.2)).any
            (fun pt => containsSub pt pq || containsSub pq pt)) = false := by
        rw [List.any_eq_false]
        intro x hx
        have := List.find?_eq_none.mp hfind x hx
        simpa using this
      rw [hany2]
      rfl
    | some pq =>
      have hmem := List.mem_of_find?_eq_some hfind
      have hp := List.find?_some hfind
      have hany2 : (palavras_expandidas_of query).any (fun pq => decide (4 ≤ pq.length)
          && (findallWords (pyLower row.2)).any
            (fun pt => containsSub pt pq || containsSub pq pt)) = true := by
        rw [List.any_eq_true]
        exact ⟨pq, hmem, hp⟩
      rw [hany2]
      rfl
  · rw [if_neg h]
    have hne : ((palavras_expandidas_of query).filter
        (fun p => (findallWords (pyLower row.2)).contains p)) ≠ [] := by
      intro hnil
      rw [List.isEmpty_iff] at h
      exact h hnil
    cases hl : (palavras_expandidas_of query).filter
        (fun p => (findallWords (pyLower row.2)).contains p) with
    | nil => exact absurd hl hne
    | cons x xs =>
      have hx : x ∈ (palavras_expandidas_of query).filter
          (fun p => (findallWords (pyLower row.2)).contains p) := by
        rw [hl]
        exact List.mem_cons_self _ _
      obtain ⟨hxE, hxT⟩ := List.mem_filter.mp hx
      have hany1 : (palavras_expandidas_of query).any
          (fun t => (findallWords (pyLower row.2)).contains t) = true := by
        rw [List.any_eq_true]
        exact ⟨x, hxE, hxT⟩
      rw [hany1]
      simp

/-- C7: a (case, theme) pair is judged a match exactly by the claim's
criterion (expanded-token intersection, or a ≥4-character substring
relation between an expanded token and a description token); the
negation check's output is one `negação` claim per matching pair, with
`confirmed = false` and the pair's case identifier as subject (`N/A`
fallback only when nothing matches). -/
theorem negation_match_rule (query : PyStr) (kg : KG) (row : PyStr × PyStr) :
    rowMatchCode query row = negMatchCriterionB query row
    ∧ verificar_claim_negativo kg query
        = (if (kg.temas.filter (rowMatchCode query)).isEmpty then [naClaim]
           else (kg.temas.filter (rowMatchCode query)).map mkNegClaim)
    ∧ (mkNegClaim row).encontrado_no_kg = false
    ∧ (mkNegClaim row).processo = row.1
    ∧ (mkNegClaim row).tipo = pystr "negação" :=
  ⟨rowMatch_iff_criterion query row, verificar_claim_negativo_eq kg query, rfl, rfl, rfl⟩

/-! ### C9: empty lookup means unconfirmed -/

/-- The per-kind case-record lookup of the graph verifier comes back
empty (the filter of each Cypher `WHERE` clause matches no row). -/
def noMatchingRecords (kg : KG) (c : Claim) : Bool :=
  if c.tipo = pystr "processo" then
    (kg.processos.filter (fun n => containsSub (pyUpper n) (pyUpper c.processo))).isEmpty
  else if c.tipo = pystr "relator" then
    (kg.relatores.filter (fun r => containsSub (pyUpper r.1) (pyUpper c.processo))).isEmpty
  else if c.tipo = pystr "artigo" then
    (kg.artigos.filter (fun r => containsSub (pyUpper r.1) (pyUpper c.processo))).isEmpty
  else if c.tipo = pystr "tema" then
    (kg.temas.filter (fun r => containsSub (pyUpper r.1) (pyUpper c.processo))).isEmpty
  else false

/-- C9: a non-negation claim (`processo`, `relator`, `artigo` or `tema`)
whose data-source lookup returns no matching case record is verified
with `confirmed = false`. -/
theorem verifier_no_record_unconfirmed (kg : KG) (c : Claim)
    (htipo : c.tipo = pystr "processo" ∨ c.tipo = pystr "relator"
      ∨ c.tipo = pystr "artigo" ∨ c.tipo = pystr "tema")
    (hempty : noMatchingRecords kg c = true) :
    verificarClaim1 kg c = { c with verificado := true, encontrado_no_kg := false } := by
  unfold noMatchingRecords at hempty
  unfold verificarClaim1
  rcases htipo with h | h | h | h
  · rw [if_pos h] at hempty ⊢
    have hf := List.isEmpty_iff.mp hempty
    unfold verificar_processo
    rw [hf]
    rfl
  · rw [if_neg (by rw [h]; decide), if_pos h] at hempty ⊢
    have hf := List.isEmpty_iff.mp hempty
    unfold verificar_relator
    rw [hf]
    rfl
  · rw [if_neg (by rw [h]; decide), if_neg (by rw [h]; decide), if_pos h] at hempty ⊢
    have hf := List.isEmpty_iff.mp hempty
    unfold verificar_artigo
    rw [hf]
    rfl
  · rw [if_neg (by rw [h]; decide), if_neg (by rw [h]; decide),
      if_neg (by rw [h]; decide), if_pos h] at hempty ⊢
    have hf := List.isEmpty_iff.mp hempty
    unfold verificar_tema
    rw [hf]
    rfl

def cC9 : Claim := { tipo := pystr "relator", processo := pystr "HC 9", valor := pystr "Nome X" }

/-- Witness for C9: a reporter claim against an empty graph. -/
theorem verifier_no_record_unconfirmed_witness :
    (cC9.tipo = pystr "processo" ∨ cC9.tipo = pystr "relator"
      ∨ cC9.tipo = pystr "artigo" ∨ cC9.tipo = pystr "tema")
    ∧ noMatchingRecords {} cC9 = true
    ∧ verificarClaim1 {} cC9 = { cC9 with verificado := true, encontrado_no_kg := false } :=
  ⟨by decide, by decide,
   verifier_no_record_unconfirmed {} cC9 (by decide) (by decide)⟩

/-! ### C3: the metrics parser -/

/-- C3 (amended): when no strategy's pattern matches, or when the
matched fragment fails JSON decoding, `parse_metrics_from_review`
returns the fully-defaulted `QualityMetrics` — a decode failure does
not fall through to later strategies and is not an error. -/
theorem metrics_parser_decode_failure_defaults (s : PyStr)
    (h : noUsableFragment s = true) :
    parse_metrics_from_review s = .ok {} := by
  unfold parse_metrics_from_review
  unfold noUsableFragment at h
  cases hsel : selectFragment s with
  | none => rfl
  | some frag =>
    rw [hsel] at h
    dsimp only [] at h
    dsimp only []
    cases hl : jsonLoads (pyStrip frag) with
    | none => rfl
    | some v =>
      rw [hl] at h
      simp at h

/-- Witness for C3 (amended): a fenced metrics block whose content fails
to decode yields the defaulted metrics. -/
theorem metrics_parser_decode_failure_defaults_witness :
    noUsableFragment (pystr "```quality_metrics\noops\n```") = true
    ∧ parse_metrics_from_review (pystr "```quality_metrics\noops\n```") = .ok {} :=
  ⟨by decide,
   metrics_parser_decode_failure_defaults (pystr "```quality_metrics\noops\n```") (by decide)⟩

def s0C3 : PyStr :=
  pystr "```quality_metrics\ngarbage\n```\nblah \x7b\"validado\": true, \"problemas\": []\x7d"

def s1C3 : PyStr := pystr "```quality_metrics\n[1, 2]\n```"

/-- Counterexample to C3 as stated: (a) on `s0C3` the first strategy's
fragment (`garbage`) fails to parse, yet the parser does NOT fall
through to the inline-JSON strategy — it returns the defaulted metrics
(`validado = false`), while the spec's cascade (`parse_metrics_spec`)
recovers `validado = true`; (b) on `s1C3` the matched fragment decodes
to a JSON array and the function raises `AttributeError` instead of
returning a `QualityMetrics`, so it is not total. -/
theorem metrics_parser_counterexample :
    parse_metrics_from_review s0C3 = .ok {}
    ∧ (parse_metrics_spec s0C3).validado = true
    ∧ parse_metrics_from_review s1C3 = .attrError :=
  ⟨by decide, by decide, by decide⟩

/-! ### C10: log round trip and aggregate report -/

theorem foldl_append_map {α β : Type} (g : α → β) (l : List α) (init : List β) :
    l.foldl (fun acc a => acc ++ [g a]) init = init ++ l.map g := by
  induction l generalizing init with
  | nil => simp
  | cons a t ih =>
    simp only [List.foldl_cons, List.map_cons, ih]
    simp

theorem filterMap_all_some {α β : Type} (f : α → Option β) (g : α → β) (l : List α)
    (h : ∀ a ∈ l, f a = some (g a)) : l.filterMap f = l.map g := by
  induction l with
  | nil => rfl
  | cons a t ih =>
    rw [List.filterMap_cons, h a (List.mem_cons_self _ _), List.map_cons,
      ih (fun x hx => h x (List.mem_cons_of_mem _ hx))]

/-- The entry record that one `log_quality` call stores. -/
def entryOfArgs (a : WriteArgs) : QualityLogEntry :=
  { timestamp := a.ts, query := a.query, metrics := a.metrics,
    analyst_chars := (a.analyst_text.length : Int),
    reviewer_chars := (a.reviewer_text.length : Int) }

theorem writeAll_eq (args : List WriteArgs) :
    writeAll args = args.map (fun a => entryToJson (entryOfArgs a) a.checker) := by
  have hrfl : writeAll args
      = args.foldl (fun file a => file ++ [entryToJson (entryOfArgs a) a.checker]) [] := rfl
  rw [hrfl, foldl_append_map (fun a => entryToJson (entryOfArgs a) a.checker) args []]
  rfl

theorem load_writeAll (args : List WriteArgs) :
    load_quality_log (writeAll args) = args.map entryOfArgs := by
  rw [writeAll_eq]
  unfold load_quality_log
  rw [List.filterMap_map]
  exact filterMap_all_some _ entryOfArgs args
    (fun a _ => loadEntry_entryToJson (entryOfArgs a) a.checker)

/-- C10: writing N entries into an empty log and reloading yields
exactly those N entries, with the written query strings and fidelity
scores; the aggregate report's minimum, maximum and mean fidelity score
equal the direct computation over the written scores. -/
theorem log_roundtrip_stats (args : List WriteArgs) (h : args ≠ []) :
    load_quality_log (writeAll args) = args.map entryOfArgs
    ∧ (load_quality_log (writeAll args)).length = args.length
    ∧ (load_quality_log (writeAll args)).map (fun e => e.query)
        = args.map (fun a => a.query)
    ∧ (load_quality_log (writeAll args)).map (fun e => e.metrics.score_fidelidade)
        = args.map (fun a => a.metrics.score_fidelidade)
    ∧ (print_quality_report_stats (writeAll args)).map (fun st => st.score_min)
        = pyMinL (args.map (fun a => a.metrics.score_fidelidade))
    ∧ (print_quality_report_stats (writeAll args)).map (fun st => st.score_max)
        = pyMaxL (args.map (fun a => a.metrics.score_fidelidade))
    ∧ (print_quality_report_stats (writeAll args)).map (fun st => st.score_medio)
        = some ((args.map (fun a => a.metrics.score_fidelidade)).sum / (args.length : ℚ)) := by
  have hload := load_writeAll args
  refine ⟨hload, ?_, ?_, ?_, ?_, ?_, ?_⟩
  · rw [hload, List.length_map]
  · rw [hload, List.map_map]
    rfl
  · rw [hload, List.map_map]
    rfl
  all_goals {
    cases args with
    | nil => exact absurd rfl h
    | cons a t =>
      have hcons : load_quality_log (writeAll (a :: t))
          = entryOfArgs a :: t.map entryOfArgs := by
        rw [hload, List.map_cons]
      unfold print_quality_report_stats
      rw [hcons]
      dsimp only []
      simp only [List.map_map, List.map_cons, List.length_cons, List.length_map,
        List.sum_cons, pyMinL, pyMaxL]
      rfl
  }

def argsW : List WriteArgs :=
  [{ ts := pystr "t1", query := pystr "q1", metrics := { score_fidelidade := 80 } },
   { ts := pystr "t2", query := pystr "q2", metrics := { score_fidelidade := 60 } }]

/-- Witness for C10: two concrete entries; the report's mean over the
reloaded log equals the direct mean of the written scores. -/
theorem log_roundtrip_stats_witness :
    argsW ≠ []
    ∧ (print_quality_report_stats (writeAll argsW)).map (fun st => st.score_medio)
        = some ((argsW.map (fun a => a.metrics.score_fidelidade)).sum / (argsW.length : ℚ)) :=
  ⟨by decide, (log_roundtrip_stats argsW (by decide)).2.2.2.2.2.2⟩
